import Mathlib

/-!
Verification of the Auxios refresh-coordination core against its design
specification.

The development shallowly embeds the TypeScript source:

* `Auxios.Json`: a model of the host runtime's JSON / base64 / UTF-8
  primitives (`JSON.parse`, `atob`, `decodeURIComponent∘escape`), which the
  repository consumes but does not define.  JavaScript numbers are modelled
  as rationals, JavaScript strings as Lean strings.
* `Auxios.JWTDecoder`: `src/utils/jwt-decoder.ts`.
* `Auxios.TokenManager`: `src/core/token-manager.ts` (the expiry-state
  version).  `Date.now()` is passed explicitly in milliseconds; the armed
  `setTimeout` is represented by its delay.
* `Auxios.RefreshController`: `src/core/refresh-controller.ts` (the
  rate-limited version): error classification, the rate ceiling, and a pure
  one-operation model `performRefresh` recording the emitted events.
* `Auxios.RequestQueue`: `src/core/request-queue.ts`, with promise cells
  that count effective settlements (a JS promise ignores settle attempts
  after the first).
* `Auxios.SingleFlight`: an event-level machine for the promise-sharing
  behaviour of `RefreshController.refresh`.
-/

namespace Auxios

namespace Json

/-- JSON values as produced by the host runtime's `JSON.parse`. -/
inductive JsValue where
  | null
  | bool (b : Bool)
  | num (q : ℚ)
  | str (s : String)
  | arr (elems : List JsValue)
  | obj (fields : List (String × JsValue))
deriving Repr

/-- Whitespace accepted by the JSON grammar. -/
def isJsonWs (c : Char) : Bool :=
  [' ', '\t', '\n', '\r'].contains c

def skipWs (cs : List Char) : List Char :=
  cs.dropWhile isJsonWs

/-- Numeric value of a hexadecimal digit (code-point arithmetic: digits
are 48–57, lowercase 97–102, uppercase 65–70). -/
def hexDigitVal (c : Char) : Option Nat :=
  let n := c.toNat
  if 48 ≤ n ∧ n ≤ 57 then some (n - 48)
  else if 97 ≤ n ∧ n ≤ 102 then some (n - 87)
  else if 65 ≤ n ∧ n ≤ 70 then some (n - 55)
  else none

/-- Body of a JSON string literal, after the opening quote.  Returns the
decoded characters and the input following the closing quote. -/
def parseStringBody : List Char → Except Unit (List Char × List Char)
  | [] => .error ()
  | c :: rest =>
    if c = '"' then .ok ([], rest)
    else if c = '\\' then
      match rest with
      | [] => .error ()
      | e :: rest2 =>
        if e = 'u' then
          match rest2 with
          | h1 :: h2 :: h3 :: h4 :: rest3 =>
            match hexDigitVal h1, hexDigitVal h2, hexDigitVal h3, hexDigitVal h4 with
            | some a, some b, some c', some d =>
              match parseStringBody rest3 with
              | .ok (s, r) => .ok (Char.ofNat (((a * 16 + b) * 16 + c') * 16 + d) :: s, r)
              | .error _ => .error ()
            | _, _, _, _ => .error ()
          | _ => .error ()
        else
          match
            (if e = '"' then some '"'
             else if e = '\\' then some '\\'
             else if e = '/' then some '/'
             else if e = 'b' then some (Char.ofNat 8)
             else if e = 'f' then some (Char.ofNat 12)
             else if e = 'n' then some '\n'
             else if e = 'r' then some '\r'
             else if e = 't' then some '\t'
             else none) with
          | some c' =>
            match parseStringBody rest2 with
            | .ok (s, r) => .ok (c' :: s, r)
            | .error _ => .error ()
          | none => .error ()
    else if c.toNat < 0x20 then .error ()
    else
      match parseStringBody rest with
      | .ok (s, r) => .ok (c :: s, r)
      | .error _ => .error ()

def digitsToNat (ds : List Char) : Nat :=
  ds.foldl (fun acc d => 10 * acc + (d.toNat - 48)) 0

/-- Exponent suffix of a JSON number, after the `e`/`E`: optional sign,
then at least one digit. -/
def parseExp (r : List Char) : Option (Int × List Char) :=
  let signed : Int × List Char :=
    match r with
    | '+' :: r2 => (1, r2)
    | '-' :: r2 => (-1, r2)
    | _ => (1, r)
  let dsp := signed.2.span Char.isDigit
  if dsp.1 = [] then none else some (signed.1 * (digitsToNat dsp.1 : Int), dsp.2)

/-- Unsigned JSON number: integer part without leading zeros, optional
fraction, optional exponent.  The value is exact as a rational; the
host's float rounding is not modelled. -/
def parseNumBody (cs1 : List Char) : Except Unit (ℚ × List Char) :=
  let intSpan := cs1.span Char.isDigit
  if intSpan.1 = [] then .error ()
  else if intSpan.1.head? = some '0' ∧ 1 < intSpan.1.length then .error ()
  else
    let fracSpan : Option (List Char × List Char) :=
      match intSpan.2 with
      | '.' :: r =>
        let sp := r.span Char.isDigit
        if sp.1 = [] then none else some sp
      | _ => some ([], intSpan.2)
    match fracSpan with
    | none => .error ()
    | some (fracDs, afterFrac) =>
      let expPart : Option (Int × List Char) :=
        match afterFrac with
        | 'e' :: r => parseExp r
        | 'E' :: r => parseExp r
        | _ => some (0, afterFrac)
      match expPart with
      | none => .error ()
      | some (ex, rest) =>
        let base : ℚ :=
          (digitsToNat intSpan.1 : ℚ) + (digitsToNat fracDs : ℚ) / (10 : ℚ) ^ fracDs.length
        .ok (base * (10 : ℚ) ^ ex, rest)

/-- JSON number literal, with its optional leading minus. -/
def parseNumber (cs : List Char) : Except Unit (ℚ × List Char) :=
  match cs with
  | '-' :: r => (parseNumBody r).map (fun pr => (-pr.1, pr.2))
  | _ => parseNumBody cs

/-- Does `pre` prefix the list, returning the remainder? -/
def stripPre : List Char → List Char → Option (List Char)
  | [], cs => some cs
  | _, [] => none
  | p :: ps, c :: cs => if p = c then stripPre ps cs else none

mutual

/-- One JSON value; fuel bounds the recursion depth. -/
def parseValue : Nat → List Char → Except Unit (JsValue × List Char)
  | 0, _ => .error ()
  | fuel + 1, cs =>
    match skipWs cs with
    | [] => .error ()
    | c :: rest =>
      if c = '"' then
        match parseStringBody rest with
        | .ok (s, r) => .ok (.str (String.mk s), r)
        | .error _ => .error ()
      else if c = '{' then
        parseMembers fuel (skipWs rest) true
      else if c = '[' then
        parseElements fuel (skipWs rest) true
      else if c = 't' then
        match stripPre ['r', 'u', 'e'] rest with
        | some r => .ok (.bool true, r)
        | none => .error ()
      else if c = 'f' then
        match stripPre ['a', 'l', 's', 'e'] rest with
        | some r => .ok (.bool false, r)
        | none => .error ()
      else if c = 'n' then
        match stripPre ['u', 'l', 'l'] rest with
        | some r => .ok (.null, r)
        | none => .error ()
      else if c = '-' ∨ c.isDigit then
        match parseNumber (c :: rest) with
        | .ok (q, r) => .ok (.num q, r)
        | .error _ => .error ()
      else .error ()

/-- Object members after the opening brace (`first` marks the position just
after it, where a closing brace is legal). -/
def parseMembers : Nat → List Char → Bool → Except Unit (JsValue × List Char)
  | 0, _, _ => .error ()
  | fuel + 1, cs, first =>
    match cs with
    | '}' :: rest =>
      if first then .ok (.obj [], rest) else .error ()
    | _ =>
      match parseMembersLoop fuel cs with
      | .ok (fields, r) => .ok (.obj fields, r)
      | .error _ => .error ()

/-- One or more comma-separated `"key": value` pairs, then the closing
brace. -/
def parseMembersLoop : Nat → List Char → Except Unit (List (String × JsValue) × List Char)
  | 0, _ => .error ()
  | fuel + 1, cs =>
    match skipWs cs with
    | '"' :: rest =>
      match parseStringBody rest with
      | .ok (key, r1) =>
        match skipWs r1 with
        | ':' :: r2 =>
          match parseValue fuel r2 with
          | .ok (v, r3) =>
            match skipWs r3 with
            | ',' :: r4 =>
              match parseMembersLoop fuel r4 with
              | .ok (fields, r5) => .ok ((String.mk key, v) :: fields, r5)
              | .error _ => .error ()
            | '}' :: r4 => .ok ([(String.mk key, v)], r4)
            | _ => .error ()
          | .error _ => .error ()
        | _ => .error ()
      | .error _ => .error ()
    | _ => .error ()

/-- Array elements after the opening bracket. -/
def parseElements : Nat → List Char → Bool → Except Unit (JsValue × List Char)
  | 0, _, _ => .error ()
  | fuel + 1, cs, first =>
    match cs with
    | ']' :: rest =>
      if first then .ok (.arr [], rest) else .error ()
    | _ =>
      match parseElementsLoop fuel cs with
      | .ok (elems, r) => .ok (.arr elems, r)
      | .error _ => .error ()

/-- One or more comma-separated array elements, then the closing bracket. -/
def parseElementsLoop : Nat → List Char → Except Unit (List JsValue × List Char)
  | 0, _ => .error ()
  | fuel + 1, cs =>
    match parseValue fuel cs with
    | .ok (v, r1) =>
      match skipWs r1 with
      | ',' :: r2 =>
        match parseElementsLoop fuel r2 with
        | .ok (elems, r3) => .ok (v :: elems, r3)
        | .error _ => .error ()
      | ']' :: r2 => .ok ([v], r2)
      | _ => .error ()
    | .error _ => .error ()

end

/-- Model of `JSON.parse`: parse a complete JSON text; trailing
non-whitespace is a parse error. -/
def jsonParse (s : String) : Except Unit JsValue :=
  let cs := s.toList
  match parseValue (cs.length + 1) cs with
  | .ok (v, rest) =>
    if (skipWs rest).isEmpty then .ok v else .error ()
  | .error _ => .error ()

/-- Value of a base64 alphabet character (code-point arithmetic: uppercase
65–90 map to 0–25, lowercase 97–122 to 26–51, digits 48–57 to 52–61). -/
def b64Val (c : Char) : Option Nat :=
  let n := c.toNat
  if 65 ≤ n ∧ n ≤ 90 then some (n - 65)
  else if 97 ≤ n ∧ n ≤ 122 then some (n - 71)
  else if 48 ≤ n ∧ n ≤ 57 then some (n + 4)
  else if n = 43 then some 62
  else if n = 47 then some 63
  else none

/-- Model of the host's `atob` on a padded input: decode base64 quanta of
four characters into bytes; `=` is legal only as final padding.  Leftover
bits of a partial final quantum are discarded, as in forgiving-base64. -/
def atobBytes : List Char → Except Unit (List Nat)
  | [] => .ok []
  | c1 :: c2 :: c3 :: c4 :: rest =>
    match b64Val c1, b64Val c2 with
    | some v1, some v2 =>
      if c3 = '=' then
        if c4 = '=' ∧ rest = [] then .ok [v1 * 4 + v2 / 16]
        else .error ()
      else
        match b64Val c3 with
        | some v3 =>
          if c4 = '=' then
            if rest = [] then .ok [v1 * 4 + v2 / 16, (v2 % 16) * 16 + v3 / 4]
            else .error ()
          else
            match b64Val c4 with
            | some v4 =>
              match atobBytes rest with
              | .ok bs => .ok ((v1 * 4 + v2 / 16) :: ((v2 % 16) * 16 + v3 / 4) :: ((v3 % 4) * 64 + v4) :: bs)
              | .error _ => .error ()
            | none => .error ()
        | none => .error ()
    | _, _ => .error ()
  | _ => .error ()

/-- Is `n` a scalar value usable as a `Char`? -/
def validCodePoint (n : Nat) : Bool :=
  decide (n < 0xd800 ∨ (0xe000 ≤ n ∧ n < 0x110000))

/-- UTF-8 decoding of a byte list, as performed by
`decodeURIComponent` on the percent-encoded bytes: `none` on any invalid
sequence. -/
def utf8DecodeBytes : List Nat → Option (List Char)
  | [] => some []
  | b :: bs =>
    if b < 0x80 then
      match utf8DecodeBytes bs with
      | some cs => some (Char.ofNat b :: cs)
      | none => none
    else if 0xc2 ≤ b ∧ b ≤ 0xdf then
      match bs with
      | b2 :: bs2 =>
        if 0x80 ≤ b2 ∧ b2 ≤ 0xbf then
          match utf8DecodeBytes bs2 with
          | some cs => some (Char.ofNat ((b - 0xc0) * 64 + (b2 - 0x80)) :: cs)
          | none => none
        else none
      | [] => none
    else if 0xe0 ≤ b ∧ b ≤ 0xef then
      match bs with
      | b2 :: b3 :: bs2 =>
        if (0x80 ≤ b2 ∧ b2 ≤ 0xbf) ∧ (0x80 ≤ b3 ∧ b3 ≤ 0xbf) then
          let n := (b - 0xe0) * 4096 + (b2 - 0x80) * 64 + (b3 - 0x80)
          if validCodePoint n ∧ 0x800 ≤ n then
            match utf8DecodeBytes bs2 with
            | some cs => some (Char.ofNat n :: cs)
            | none => none
          else none
        else none
      | _ => none
    else if 0xf0 ≤ b ∧ b ≤ 0xf4 then
      match bs with
      | b2 :: b3 :: b4 :: bs2 =>
        if (0x80 ≤ b2 ∧ b2 ≤ 0xbf) ∧ (0x80 ≤ b3 ∧ b3 ≤ 0xbf) ∧ (0x80 ≤ b4 ∧ b4 ≤ 0xbf) then
          let n := (b - 0xf0) * 262144 + (b2 - 0x80) * 4096 + (b3 - 0x80) * 64 + (b4 - 0x80)
          if validCodePoint n ∧ 0x10000 ≤ n then
            match utf8DecodeBytes bs2 with
            | some cs => some (Char.ofNat n :: cs)
            | none => none
          else none
        else none
      | _ => none
    else none

end Json

namespace JWTDecoder

open Json

/-- `base64UrlDecode` from `src/utils/jwt-decoder.ts`: translate the
base64url alphabet, pad to a multiple of four, `atob`; then interpret the
bytes as UTF-8 (the `decodeURIComponent` of the percent-encoded bytes),
falling back to the raw `atob` output (one character per byte) when that
throws. -/
def base64UrlDecode (str : String) : Except Unit String :=
  let base64 := (str.replace "-" "+").replace "_" "/"
  let pad := base64.length % 4
  let padded := if pad ≠ 0 then base64 ++ String.mk (List.replicate (4 - pad) '=') else base64
  match atobBytes padded.toList with
  | .error _ => .error ()
  | .ok bytes =>
    match utf8DecodeBytes bytes with
    | some cs => .ok (String.mk cs)
    | none => .ok (String.mk (bytes.map Char.ofNat))

/-- `decode` from `src/utils/jwt-decoder.ts`: split on the dots, require
exactly three segments, base64url-decode the middle one and `JSON.parse`
it; any failure inside the `try` yields `null`.  A payload whose JSON text
is the literal `null` makes `JSON.parse` return `null`, which the caller
cannot distinguish from the failure result, so it is mapped to `none` as
well. -/
def decode (token : String) : Option JsValue :=
  let parts := token.splitOn "."
  match parts with
  | [_, payload, _] =>
    match base64UrlDecode payload with
    | .error _ => none
    | .ok decoded =>
      match jsonParse decoded with
      | .error _ => none
      | .ok .null => none
      | .ok v => some v
  | _ => none

/-- The `decoded?.exp ?? null` access: the `exp` member of the decoded
payload.  `DecodedToken` types `exp` as an optional number, so only a
numeric claim is usable; `JSON.parse` keeps the last duplicate key. -/
def jsGetExp (v : JsValue) : Option ℚ :=
  match v with
  | .obj fields =>
    match fields.reverse.lookup "exp" with
    | some (.num q) => some q
    | _ => none
  | _ => none

/-- `getExpiry`: decoded `exp` claim or `null`. -/
def getExpiry (token : String) : Option ℚ :=
  (decode token).bind jsGetExp

/-- `isExpired`: `true` when no expiry claim is obtainable (the JS guard
`if (!expiry)` also fires on a zero claim), else
`Math.floor(Date.now() / 1000) >= expiry - offsetSeconds`. -/
def isExpired (token : String) (offsetSeconds : ℚ) (nowMs : ℚ) : Bool :=
  match getExpiry token with
  | none => true
  | some expiry =>
    if expiry = 0 then true
    else decide ((⌊nowMs / 1000⌋ : ℚ) ≥ expiry - offsetSeconds)

/-- `timeUntilExpiry`: `max(0, expiry - now)` in seconds, `0` when the
claim is missing (or zero, by the same falsiness guard). -/
def timeUntilExpiry (token : String) (nowMs : ℚ) : ℚ :=
  match getExpiry token with
  | none => 0
  | some expiry =>
    if expiry = 0 then 0
    else max 0 (expiry - (⌊nowMs / 1000⌋ : ℚ))

end JWTDecoder

/-- `TokenPair` from `src/core/types.ts`; the optional lifetimes are
relative seconds as reported by the refresh transport. -/
structure TokenPair where
  accessToken : String
  refreshToken : String
  expiresIn : Option ℚ := none
  refreshExpiresIn : Option ℚ := none
deriving Repr

/-- `RefreshResponse` from `src/core/types.ts`. -/
structure RefreshResponse where
  accessToken : String
  refreshToken : String
  expiresIn : Option ℚ := none
  refreshExpiresIn : Option ℚ := none
deriving Repr

structure TokenExpiryConfig where
  proactiveRefreshOffset : ℚ
deriving Repr

namespace TokenManager

open Json

/-- `TokenManager.calculateExpiryTime`: prefer a positive `expiresIn`
(absolute instant `Date.now() / 1000 + expiresIn`), else decode the JWT
`exp` claim of a truthy token, else `null`. -/
def calculateExpiryTime (expiresIn : Option ℚ) (token : Option String) (nowMs : ℚ) : Option ℚ :=
  let jwtFallback : Option ℚ :=
    match token with
    | some t => if t.isEmpty then none else (JWTDecoder.decode t).bind JWTDecoder.jsGetExp
    | none => none
  match expiresIn with
  | some e => if e > 0 then some (nowMs / 1000 + e) else jwtFallback
  | none => jwtFallback

/-- Minimum proactive-refresh delay in milliseconds (`MIN_DELAY`). -/
def MIN_DELAY : ℚ := 10000

/-- `TokenManager.scheduleProactiveRefresh`: the delay, in milliseconds, of
the timer armed for the given state, or `none` when no timer is armed.
The offset actually subtracted is capped at 80% of the remaining lifetime
and the delay is floored at `MIN_DELAY`. -/
def scheduleProactiveRefresh (expiresAt : Option ℚ) (cfg : TokenExpiryConfig)
    (accessToken : String) (nowMs : ℚ) : Option ℚ :=
  let timeUntilExpiry : ℚ :=
    match expiresAt with
    | some ea => max 0 (ea - nowMs / 1000)
    | none => JWTDecoder.timeUntilExpiry accessToken nowMs
  if timeUntilExpiry ≤ 0 then none
  else
    let safeOffset := min cfg.proactiveRefreshOffset (timeUntilExpiry * (8 / 10))
    let calculatedDelay := (timeUntilExpiry - safeOffset) * 1000
    some (max MIN_DELAY calculatedDelay)

/-- Token-manager state: the stored tokens (an in-memory model of the
Token Store), the two absolute expiry instants, and the armed proactive
timer, represented by its delay in milliseconds. -/
structure State where
  storedAccess : Option String := none
  storedRefresh : Option String := none
  expiresAt : Option ℚ := none
  refreshExpiresAt : Option ℚ := none
  timerDelay : Option ℚ := none
deriving Repr

/-- `TokenManager.setTokens`: persist the pair, recompute both expiry
instants, and (re)arm the proactive timer. -/
def setTokens (tokens : TokenPair) (cfg : TokenExpiryConfig) (nowMs : ℚ) : State :=
  let expiresAt := calculateExpiryTime tokens.expiresIn (some tokens.accessToken) nowMs
  { storedAccess := some tokens.accessToken
    storedRefresh := some tokens.refreshToken
    expiresAt := expiresAt
    refreshExpiresAt := calculateExpiryTime tokens.refreshExpiresIn (some tokens.refreshToken) nowMs
    timerDelay := scheduleProactiveRefresh expiresAt cfg tokens.accessToken nowMs }

/-- `TokenManager.isAccessTokenExpired`: a missing (or empty, by JS
truthiness) token is expired; a known instant is authoritative; otherwise
fall back to JWT decoding. -/
def isAccessTokenExpired (st : State) (nowMs : ℚ) : Bool :=
  match st.storedAccess with
  | none => true
  | some token =>
    if token.isEmpty then true
    else
      match st.expiresAt with
      | some ea => decide (nowMs / 1000 ≥ ea)
      | none => JWTDecoder.isExpired token 0 nowMs

end TokenManager

/-- `AuthErrorCode` from `src/core/types.ts`. -/
inductive AuthErrorCode where
  | TOKEN_EXPIRED
  | TOKEN_INVALID
  | REFRESH_FAILED
  | NETWORK_ERROR
  | TIMEOUT_ERROR
  | UNAUTHORIZED
  | FORBIDDEN
  | SERVER_ERROR
  | TOKEN_BLACKLISTED
  | MAX_REFRESH_ATTEMPTS_EXCEEDED
  | UNKNOWN_ERROR
deriving Repr, DecidableEq

/-- The string value of an `AuthErrorCode` enum member. -/
def AuthErrorCode.str : AuthErrorCode → String
  | .TOKEN_EXPIRED => "TOKEN_EXPIRED"
  | .TOKEN_INVALID => "TOKEN_INVALID"
  | .REFRESH_FAILED => "REFRESH_FAILED"
  | .NETWORK_ERROR => "NETWORK_ERROR"
  | .TIMEOUT_ERROR => "TIMEOUT_ERROR"
  | .UNAUTHORIZED => "UNAUTHORIZED"
  | .FORBIDDEN => "FORBIDDEN"
  | .SERVER_ERROR => "SERVER_ERROR"
  | .TOKEN_BLACKLISTED => "TOKEN_BLACKLISTED"
  | .MAX_REFRESH_ATTEMPTS_EXCEEDED => "MAX_REFRESH_ATTEMPTS_EXCEEDED"
  | .UNKNOWN_ERROR => "UNKNOWN_ERROR"

/-- `Object.values(AuthErrorCode)`. -/
def authErrorCodeValues : List String :=
  ["TOKEN_EXPIRED", "TOKEN_INVALID", "REFRESH_FAILED", "NETWORK_ERROR",
   "TIMEOUT_ERROR", "UNAUTHORIZED", "FORBIDDEN", "SERVER_ERROR",
   "TOKEN_BLACKLISTED", "MAX_REFRESH_ATTEMPTS_EXCEEDED", "UNKNOWN_ERROR"]

/-- A JavaScript thrown value: either an `Error` instance (with its
`message`, an optional untyped `code` property, and an optional
`originalError` property, the two fields an `AuthError` adds), or any
other value. -/
inductive Thrown where
  | err (message : String) (code : Option Json.JsValue) (originalError : Option Thrown)
  | other (v : Json.JsValue)
deriving Repr

/-- The `code` property of a thrown value, when it is an `Error` carrying
one. -/
def Thrown.codeProp : Thrown → Option Json.JsValue
  | .err _ c _ => c
  | .other _ => none

/-- The `originalError` property of a thrown value. -/
def Thrown.origProp : Thrown → Option Thrown
  | .err _ _ o => o
  | .other _ => none

namespace RefreshController

open Json

/-- `RefreshController.createAuthError`: a new `Error` with the `code` and
`originalError` properties attached. -/
def createAuthError (message : String) (code : AuthErrorCode)
    (originalError : Option Thrown := none) : Thrown :=
  .err message (some (.str code.str)) originalError

/-- `RefreshController.isAuthError`: structural test — an `Error` instance
whose `code` property holds one of the `AuthErrorCode` string values
(`includes` compares with strict equality, so only a string can match). -/
def isAuthError : Thrown → Bool
  | .err _ (some (.str c)) _ => authErrorCodeValues.contains c
  | _ => false

/-- `RefreshController.normalizeError`: an already-classified auth error
is returned unchanged; any other `Error` is wrapped as `REFRESH_FAILED`;
a non-`Error` thrown value is wrapped as `UNKNOWN_ERROR`.  Both wrappers
keep the original value in `originalError`. -/
def normalizeError (e : Thrown) : Thrown :=
  if isAuthError e then e
  else
    match e with
    | .err m _ _ => createAuthError m .REFRESH_FAILED (some e)
    | .other _ => createAuthError "Unknown error during token refresh" .UNKNOWN_ERROR (some e)

/-- `RefreshLimitsConfig` from `src/core/types.ts`: a bounded number of
refresh attempts within a sliding time window (milliseconds). -/
structure RefreshLimitsConfig where
  maxRefreshAttempts : Nat
  refreshAttemptsWindow : Int
deriving Repr

/-- `RefreshController.checkRefreshLimits`: drop attempts that fell out of
the window, fail with `MAX_REFRESH_ATTEMPTS_EXCEEDED` when the remaining
count reaches the ceiling, and only otherwise record the new attempt. -/
def checkRefreshLimits (attempts : List Int) (cfg : RefreshLimitsConfig) (now : Int) :
    Except Thrown (List Int) :=
  let recent := attempts.filter (fun t => decide (now - t < cfg.refreshAttemptsWindow))
  if recent.length ≥ cfg.maxRefreshAttempts then
    .error (createAuthError
      ("Maximum refresh attempts (" ++ toString cfg.maxRefreshAttempts ++ ") exceeded within "
        ++ toString cfg.refreshAttemptsWindow ++ "ms. Possible infinite loop detected.")
      .MAX_REFRESH_ATTEMPTS_EXCEEDED)
  else
    .ok (recent ++ [now])

/-- An observable action of one `performRefresh` run: the events emitted
on the event surface and the two queue drains. -/
inductive EmitEv where
  | refreshStart
  | setTokens (t : TokenPair)
  | tokenRefreshed (t : TokenPair)
  | retryAllQueue
  | authError (e : Thrown)
  | rejectAllQueue (e : Thrown)
  | refreshEnd
deriving Repr

/-- Result of one `performRefresh` run: how its promise settles, the
actions it performed in order, the attempt record afterwards, and whether
the injected transport was invoked. -/
structure PerformOutcome where
  result : Except Thrown TokenPair
  events : List EmitEv
  attemptsAfter : List Int
  transportInvoked : Bool
deriving Repr

/-- `RefreshController.performRefresh` on a configured refresh function
whose settlement is `transport`.  The rate-ceiling check runs before the
`try`/`finally`, so a ceiling violation rejects the promise without
emitting any signal and without touching the queue. -/
def performRefresh (attempts : List Int) (cfg : RefreshLimitsConfig) (now : Int)
    (transport : Except Thrown RefreshResponse) : PerformOutcome :=
  match checkRefreshLimits attempts cfg now with
  | .error e =>
    { result := .error e
      events := []
      attemptsAfter := attempts.filter (fun t => decide (now - t < cfg.refreshAttemptsWindow))
      transportInvoked := false }
  | .ok attemptsAfter =>
    match transport with
    | .ok response =>
      let tokens : TokenPair :=
        { accessToken := response.accessToken
          refreshToken := response.refreshToken
          expiresIn := response.expiresIn
          refreshExpiresIn := response.refreshExpiresIn }
      { result := .ok tokens
        events := [.refreshStart, .setTokens tokens, .tokenRefreshed tokens,
                   .retryAllQueue, .refreshEnd]
        attemptsAfter := attemptsAfter
        transportInvoked := true }
    | .error thrown =>
      let authError := normalizeError thrown
      { result := .error authError
        events := [.refreshStart, .authError authError, .rejectAllQueue authError, .refreshEnd]
        attemptsAfter := attemptsAfter
        transportInvoked := true }

/-- The `code` property of the error a `performRefresh` run rejected
with, if it rejected. -/
def PerformOutcome.errorCode (o : PerformOutcome) : Option Json.JsValue :=
  match o.result with
  | .error e => e.codeProp
  | .ok _ => none

/-- The attempt record after a sequence of settled `refresh()` calls at
the given instants, all against the same transport. -/
def runAttempts (cfg : RefreshLimitsConfig) (transport : Except Thrown RefreshResponse) :
    List Int → List Int → List Int
  | attempts, [] => attempts
  | attempts, t :: ts =>
    runAttempts cfg transport (performRefresh attempts cfg t transport).attemptsAfter ts

end RefreshController

namespace RequestQueue

open Json

/-- A JavaScript promise, with a count of its effective settlements: a
promise transitions out of `pending` at most once, and later `resolve` or
`reject` calls are ignored. -/
inductive PromiseState where
  | pending
  | resolvedWith (v : JsValue)
  | rejectedWith (e : Thrown)
deriving Repr

structure PromiseCell where
  state : PromiseState
  settleOps : Nat
deriving Repr

def PromiseCell.initial : PromiseCell := ⟨.pending, 0⟩

/-- Settling is a no-op on an already-settled promise. -/
def settleCell (c : PromiseCell) (s : PromiseState) : PromiseCell :=
  match c.state with
  | .pending => ⟨s, c.settleOps + 1⟩
  | _ => c

/-- Settle the promise with the given id. -/
def settleAt (ps : Nat → PromiseCell) (id : Nat) (s : PromiseState) : Nat → PromiseCell :=
  fun j => if j = id then settleCell (ps id) s else ps j

/-- How a retried continuation's promise settles, given the continuation's
own outcome: the wrapped `retry` resolves it on success and rejects it on
failure. -/
def settleOf : Except Thrown JsValue → PromiseState
  | .ok v => .resolvedWith v
  | .error e => .rejectedWith e

/-- A queued continuation: the outcome its `retryFn` eventually produces,
and the continuations it enqueues onto the queue while it runs (an
`enqueue` that happens during the drain). -/
structure Continuation where
  result : Except Thrown JsValue
  spawns : List (Except Thrown JsValue) := []

/-- Queue state: the `Map` (insertion-ordered id/continuation pairs), the
id counter, and every promise ever handed out by `enqueue`.  Ids are the
values of `++this.requestCounter`, which makes them unique. -/
structure State where
  queue : List (Nat × Continuation) := []
  counter : Nat := 0
  promises : Nat → PromiseCell := fun _ => PromiseCell.initial

/-- `RequestQueue.enqueue`: register the continuation under a fresh id and
hand out its pending promise. -/
def enqueue (st : State) (k : Continuation) : State × Nat :=
  let id := st.counter + 1
  ({ st with queue := st.queue ++ [(id, k)], counter := id }, id)

/-- `RequestQueue.rejectAll`: snapshot, clear, then reject every snapshot
promise with the same error value. -/
def rejectAll (st : State) (e : Thrown) : State :=
  let requests := st.queue
  { queue := []
    counter := st.counter
    promises := requests.foldl (fun ps r => settleAt ps r.1 (.rejectedWith e)) st.promises }

/-- Enqueues performed by a continuation while it runs. -/
def runSpawns (st : State) (rs : List (Except Thrown JsValue)) : State :=
  rs.foldl (fun s r => (enqueue s { result := r }).1) st

/-- First phase of `retryAll` after the snapshot/clear: invoke every
wrapped `retry` in order.  Each one runs its continuation (performing that
continuation's enqueues) and then resolves or rejects its own promise. -/
def retryPass (st : State) : List (Nat × Continuation) → State
  | [] => st
  | (id, k) :: rest =>
    let s1 := runSpawns st k.spawns
    retryPass { s1 with promises := settleAt s1.promises id (settleOf k.result) } rest

/-- `RequestQueue.retryAll`: snapshot the queue and clear it with no
suspension point in between, run every wrapped `retry` via
`Promise.allSettled`, then reject the promise of every continuation whose
`retry` rejected (a no-op, since the wrapper already rejected it). -/
def retryAll (st : State) : State :=
  let requests := st.queue
  let drained := retryPass { st with queue := [] } requests
  { drained with
    promises := requests.foldl
      (fun ps r =>
        match r.2.result with
        | .error e => settleAt ps r.1 (.rejectedWith e)
        | .ok _ => ps)
      drained.promises }

/-- A queue populated by `enqueue` calls on a fresh `RequestQueue`. -/
def mkQueue (ks : List Continuation) : State :=
  ks.foldl (fun st k => (enqueue st k).1) {}

/-- The id/continuation pairs that successive `enqueue` calls produce when
the counter starts at `n`. -/
def tagFrom (n : Nat) : List Continuation → List (Nat × Continuation)
  | [] => []
  | k :: ks => (n + 1, k) :: tagFrom (n + 1) ks

/-- The queue contents contributed by the enqueues the drained
continuations perform, with the counter starting at `n`. -/
def spawnQueue (n : Nat) : List (Nat × Continuation) → List (Nat × Continuation)
  | [] => []
  | r :: rest =>
    tagFrom n (r.2.spawns.map (fun v => { result := v })) ++
      spawnQueue (n + r.2.spawns.length) rest

/-- Total number of enqueues the continuations perform while draining. -/
def totalSpawns (rs : List (Nat × Continuation)) : Nat :=
  (rs.map (fun r => r.2.spawns.length)).sum

/-- Is the cell still unsettled? -/
def PromiseState.isPending : PromiseState → Bool
  | .pending => true
  | _ => false

end RequestQueue

namespace SingleFlight

open RefreshController

/-- An event of the single-threaded event loop that the refresh
coordinator observes: a `refresh()` call by some caller at some instant,
or the settlement of the in-flight operation (which also runs the
initiating caller's `finally`, releasing the shared promise). -/
inductive Ev where
  | call (caller : Nat) (t : Int)
  | settle (r : Except Thrown TokenPair)

/-- Coordinator state for `RefreshController.refresh` with a configured
transport.  Promises are numbered; `inflightPid` is `this.refreshPromise`.
A window whose rate-ceiling check throws is born settled
(`inflightSettled`): its promise is already rejected when it is shared,
and the transport was never invoked for it.  `transportFor` lists the
promises for which the transport has been invoked, `holds` records which
promise each `refresh()` call returned, and `settledAs` how each promise
settled. -/
structure St where
  inflightPid : Option Nat := none
  inflightSettled : Bool := false
  nextPid : Nat := 0
  attempts : List Int := []
  transportFor : List Nat := []
  holds : List (Nat × Nat) := []
  settledAs : List (Nat × Except Thrown TokenPair) := []

/-- One event of the machine.  A `call` that observes an in-flight promise
returns it unchanged; otherwise it starts `performRefresh`, whose
synchronous prefix either throws at the ceiling check (promise born
rejected, the attempt record filtered to the window but not extended) or
records the attempt and invokes the transport once. -/
def step (cfg : RefreshLimitsConfig) (s : St) : Ev → St
  | .call c t =>
    match s.inflightPid with
    | some p => { s with holds := (c, p) :: s.holds }
    | none =>
      match checkRefreshLimits s.attempts cfg t with
      | .error e =>
        { s with
          inflightPid := some s.nextPid
          inflightSettled := true
          attempts := s.attempts.filter (fun x => decide (t - x < cfg.refreshAttemptsWindow))
          settledAs := (s.nextPid, .error e) :: s.settledAs
          holds := (c, s.nextPid) :: s.holds
          nextPid := s.nextPid + 1 }
      | .ok att =>
        { s with
          inflightPid := some s.nextPid
          inflightSettled := false
          attempts := att
          transportFor := s.nextPid :: s.transportFor
          holds := (c, s.nextPid) :: s.holds
          nextPid := s.nextPid + 1 }
  | .settle r =>
    match s.inflightPid with
    | none => s
    | some p =>
      if s.inflightSettled then
        { s with inflightPid := none, inflightSettled := false }
      else
        { s with inflightPid := none, settledAs := (p, r) :: s.settledAs }

def run (cfg : RefreshLimitsConfig) (s : St) : List Ev → St
  | [] => s
  | e :: evs => run cfg (step cfg s e) evs

end SingleFlight

namespace AuxiosClient

/-- The `Error` thrown by the refresh function installed by
`Auxios.setupRefreshFunction` when no refresh token is stored; its `code`
property is the string `NO_REFRESH_TOKEN`, which is not an
`AuthErrorCode` value. -/
def noRefreshTokenError : Thrown :=
  .err ("No refresh token available. Please login first by calling auth.setTokens() "
        ++ "with your access and refresh tokens.")
    (some (.str "NO_REFRESH_TOKEN")) none

/-- How the installed refresh function begins: it either throws before any
network activity because `getRefreshToken()` returned a falsy value, or
proceeds towards the network call with the stored refresh token. -/
inductive RefreshFnStart where
  | threw (e : Thrown)
  | proceedsToFetch (refreshToken : String)
deriving Repr

/-- The guard at the top of the closure installed by
`Auxios.setupRefreshFunction`. -/
def setupRefreshFnGuard (storedRefreshToken : Option String) : RefreshFnStart :=
  match storedRefreshToken with
  | none => .threw noRefreshTokenError
  | some rt => if rt.isEmpty then .threw noRefreshTokenError else .proceedsToFetch rt

end AuxiosClient

end Auxios

namespace Auxios

open Json

namespace RefreshController

lemma checkRefreshLimits_ok (attempts : List Int) (cfg : RefreshLimitsConfig) (now : Int)
    (h : (attempts.filter (fun x => decide (now - x < cfg.refreshAttemptsWindow))).length <
      cfg.maxRefreshAttempts) :
    checkRefreshLimits attempts cfg now =
      .ok (attempts.filter (fun x => decide (now - x < cfg.refreshAttemptsWindow)) ++ [now]) := by
  unfold checkRefreshLimits
  rw [if_neg (not_le.mpr h)]

lemma checkRefreshLimits_tripped (attempts : List Int) (cfg : RefreshLimitsConfig) (now : Int)
    (h : cfg.maxRefreshAttempts ≤
      (attempts.filter (fun x => decide (now - x < cfg.refreshAttemptsWindow))).length) :
    checkRefreshLimits attempts cfg now =
      .error (createAuthError
        ("Maximum refresh attempts (" ++ toString cfg.maxRefreshAttempts ++ ") exceeded within "
          ++ toString cfg.refreshAttemptsWindow ++ "ms. Possible infinite loop detected.")
        .MAX_REFRESH_ATTEMPTS_EXCEEDED) := by
  unfold checkRefreshLimits
  rw [if_pos h]

lemma performRefresh_tripped (attempts : List Int) (cfg : RefreshLimitsConfig) (now : Int)
    (tr : Except Thrown RefreshResponse) (e : Thrown)
    (h : checkRefreshLimits attempts cfg now = .error e) :
    performRefresh attempts cfg now tr =
      { result := .error e
        events := []
        attemptsAfter := attempts.filter (fun x => decide (now - x < cfg.refreshAttemptsWindow))
        transportInvoked := false } := by
  unfold performRefresh
  rw [h]

lemma performRefresh_attemptsAfter_ok (attempts : List Int) (cfg : RefreshLimitsConfig)
    (now : Int) (tr : Except Thrown RefreshResponse) (l : List Int)
    (h : checkRefreshLimits attempts cfg now = .ok l) :
    (performRefresh attempts cfg now tr).attemptsAfter = l := by
  unfold performRefresh
  rw [h]
  cases tr <;> rfl

lemma performRefresh_transport_error (attempts : List Int) (cfg : RefreshLimitsConfig)
    (now : Int) (err : Thrown) (l : List Int)
    (h : checkRefreshLimits attempts cfg now = .ok l) :
    performRefresh attempts cfg now (.error err) =
      { result := .error (normalizeError err)
        events := [.refreshStart, .authError (normalizeError err),
                   .rejectAllQueue (normalizeError err), .refreshEnd]
        attemptsAfter := l
        transportInvoked := true } := by
  unfold performRefresh
  rw [h]

lemma performRefresh_transport_ok (attempts : List Int) (cfg : RefreshLimitsConfig)
    (now : Int) (resp : RefreshResponse) (l : List Int)
    (h : checkRefreshLimits attempts cfg now = .ok l) :
    performRefresh attempts cfg now (.ok resp) =
      { result := .ok ⟨resp.accessToken, resp.refreshToken, resp.expiresIn, resp.refreshExpiresIn⟩
        events := [.refreshStart,
                   .setTokens ⟨resp.accessToken, resp.refreshToken,
                               resp.expiresIn, resp.refreshExpiresIn⟩,
                   .tokenRefreshed ⟨resp.accessToken, resp.refreshToken,
                                    resp.expiresIn, resp.refreshExpiresIn⟩,
                   .retryAllQueue, .refreshEnd]
        attemptsAfter := l
        transportInvoked := true } := by
  unfold performRefresh
  rw [h]

lemma runAttempts_all_within (cfg : RefreshLimitsConfig) (tr : Except Thrown RefreshResponse)
    (ts : List Int) :
    ∀ pre : List Int,
    pre.length + ts.length ≤ cfg.maxRefreshAttempts →
    (∀ y ∈ ts, ∀ x ∈ pre, y - x < cfg.refreshAttemptsWindow) →
    List.Pairwise (fun a b => b - a < cfg.refreshAttemptsWindow) ts →
    runAttempts cfg tr pre ts = pre ++ ts := by
  induction ts with
  | nil =>
    intro pre _ _ _
    simp [runAttempts]
  | cons t ts ih =>
    intro pre hlen hcross hpair
    have hkeep : pre.filter (fun x => decide (t - x < cfg.refreshAttemptsWindow)) = pre :=
      List.filter_eq_self.mpr (fun x hx => by
        simp only [decide_eq_true_eq]
        exact hcross t (List.mem_cons_self _ _) x hx)
    have hlt : pre.length < cfg.maxRefreshAttempts := by
      simp only [List.length_cons] at hlen
      omega
    have hok : checkRefreshLimits pre cfg t = .ok (pre ++ [t]) := by
      have h := checkRefreshLimits_ok pre cfg t (by rw [hkeep]; exact hlt)
      rw [hkeep] at h
      exact h
    show runAttempts cfg tr (performRefresh pre cfg t tr).attemptsAfter ts = pre ++ t :: ts
    rw [performRefresh_attemptsAfter_ok pre cfg t tr (pre ++ [t]) hok]
    rw [ih (pre ++ [t]) (by simp only [List.length_append, List.length_cons,
      List.length_nil] at hlen ⊢; omega)
      (fun y hy x hx => by
        rcases List.mem_append.mp hx with hx | hx
        · exact hcross y (List.mem_cons_of_mem _ hy) x hx
        · rw [List.mem_singleton.mp hx]
          exact (List.pairwise_cons.mp hpair).1 y hy)
      (List.pairwise_cons.mp hpair).2]
    simp

end RefreshController

namespace RequestQueue

lemma enqueue_fold (ks : List Continuation) :
    ∀ st : State,
    ks.foldl (fun s k => (enqueue s k).1) st =
      { queue := st.queue ++ tagFrom st.counter ks
        counter := st.counter + ks.length
        promises := st.promises } := by
  induction ks with
  | nil => intro st; simp [tagFrom]
  | cons k ks ih =>
    intro st
    show ks.foldl (fun s k => (enqueue s k).1) (enqueue st k).1 = _
    rw [ih]
    simp [enqueue, tagFrom]
    omega

lemma mkQueue_eq (ks : List Continuation) :
    mkQueue ks = { queue := tagFrom 0 ks, counter := ks.length,
                   promises := fun _ => PromiseCell.initial } := by
  unfold mkQueue
  rw [enqueue_fold]
  simp

lemma runSpawns_eq (rs : List (Except Thrown Json.JsValue)) (st : State) :
    runSpawns st rs =
      { queue := st.queue ++ tagFrom st.counter (rs.map (fun v => { result := v }))
        counter := st.counter + rs.length
        promises := st.promises } := by
  unfold runSpawns
  rw [← List.foldl_map (fun v => ({ result := v } : Continuation))
    (fun s k => (enqueue s k).1)]
  rw [enqueue_fold]
  simp

lemma retryPass_closed (rs : List (Nat × Continuation)) :
    ∀ st : State,
    retryPass st rs =
      { queue := st.queue ++ spawnQueue st.counter rs
        counter := st.counter + totalSpawns rs
        promises := rs.foldl (fun ps r => settleAt ps r.1 (settleOf r.2.result)) st.promises } := by
  induction rs with
  | nil => intro st; simp [retryPass, spawnQueue, totalSpawns]
  | cons r rs ih =>
    intro st
    show retryPass _ rs = _
    rw [runSpawns_eq, ih]
    simp [spawnQueue, totalSpawns]
    omega

lemma rejectAll_eq (st : State) (e : Thrown) :
    rejectAll st e =
      { queue := []
        counter := st.counter
        promises := st.queue.foldl (fun ps r => settleAt ps r.1 (.rejectedWith e))
          st.promises } := rfl

lemma retryAll_eq (st : State) :
    retryAll st =
      { queue := spawnQueue st.counter st.queue
        counter := st.counter + totalSpawns st.queue
        promises := st.queue.foldl
          (fun ps r =>
            match r.2.result with
            | .error e => settleAt ps r.1 (.rejectedWith e)
            | .ok _ => ps)
          (st.queue.foldl (fun ps r => settleAt ps r.1 (settleOf r.2.result)) st.promises) } := by
  unfold retryAll
  dsimp only
  rw [retryPass_closed]
  simp

lemma settleAt_ne (ps : Nat → PromiseCell) (id : Nat) (s : PromiseState) (j : Nat)
    (hj : j ≠ id) : settleAt ps id s j = ps j :=
  if_neg hj

lemma fold_eval_out {α : Type} (F : (Nat → PromiseCell) → (Nat × α) → Nat → PromiseCell)
    (hF : ∀ ps r j, j ≠ r.1 → F ps r j = ps j) :
    ∀ (rs : List (Nat × α)) (ps : Nat → PromiseCell) (id : Nat),
    id ∉ rs.map Prod.fst → rs.foldl F ps id = ps id := by
  intro rs
  induction rs with
  | nil => intro ps id _; rfl
  | cons r rs ih =>
    intro ps id hid
    simp only [List.map_cons, List.mem_cons, not_or] at hid
    show rs.foldl F (F ps r) id = ps id
    rw [ih (F ps r) id hid.2, hF ps r id hid.1]

lemma settle_fold_mem (f : Nat × Continuation → PromiseState) :
    ∀ (rs : List (Nat × Continuation)) (ps : Nat → PromiseCell) (id : Nat) (k : Continuation),
    (rs.map Prod.fst).Nodup → (id, k) ∈ rs → ps id = PromiseCell.initial →
    rs.foldl (fun ps r => settleAt ps r.1 (f r)) ps id = ⟨f (id, k), 1⟩ := by
  intro rs
  induction rs with
  | nil => intro ps id k _ hmem; exact absurd hmem (List.not_mem_nil _)
  | cons r rs ih =>
    intro ps id k hnodup hmem hinit
    have hnodup2 := (List.nodup_cons.mp hnodup).2
    have hhead := (List.nodup_cons.mp hnodup).1
    rcases List.mem_cons.mp hmem with heq | hmem2
    · show rs.foldl (fun ps r => settleAt ps r.1 (f r)) (settleAt ps r.1 (f r)) id = _
      have hout : id ∉ rs.map Prod.fst := by
        rw [← heq] at hhead
        exact hhead
      rw [fold_eval_out (fun ps r => settleAt ps r.1 (f r))
        (fun ps r j hj => settleAt_ne ps r.1 (f r) j hj) rs (settleAt ps r.1 (f r)) id hout]
      rw [← heq]
      show (if id = id then settleCell (ps id) (f (id, k)) else ps id) = _
      rw [if_pos rfl, hinit]
      rfl
    · show rs.foldl (fun ps r => settleAt ps r.1 (f r)) (settleAt ps r.1 (f r)) id = _
      have hne : id ≠ r.1 := by
        intro h
        apply hhead
        rw [← h]
        exact List.mem_map_of_mem Prod.fst hmem2
      refine ih (settleAt ps r.1 (f r)) id k hnodup2 hmem2 ?_
      rw [settleAt_ne ps r.1 (f r) id hne]
      exact hinit

lemma pass2_preserves :
    ∀ (rs : List (Nat × Continuation)) (ps : Nat → PromiseCell) (id : Nat),
    (ps id).state.isPending = false →
    (rs.foldl
      (fun (ps : Nat → PromiseCell) (r : Nat × Continuation) =>
        match r.2.result with
        | .error e => settleAt ps r.1 (.rejectedWith e)
        | .ok _ => ps)
      ps) id = ps id := by
  intro rs
  induction rs with
  | nil => intro ps id _; rfl
  | cons r rs ih =>
    intro ps id hset
    rw [List.foldl_cons]
    rcases hr : r.2.result with e | v
    · simp only [hr]
      have hat : settleAt ps r.1 (.rejectedWith e) id = ps id := by
        by_cases hid : id = r.1
        · unfold settleAt
          rw [if_pos hid, ← hid]
          cases hps : (ps id).state
          · rw [hps] at hset
            exact absurd hset (by simp [PromiseState.isPending])
          · unfold settleCell
            rw [hps]
          · unfold settleCell
            rw [hps]
        · exact settleAt_ne ps r.1 _ id hid
      rw [ih (settleAt ps r.1 (.rejectedWith e)) id (by rw [hat]; exact hset), hat]
    · simp only [hr]
      exact ih ps id hset

lemma settleOf_not_pending (r : Except Thrown Json.JsValue) :
    (settleOf r).isPending = false := by
  cases r <;> rfl

lemma tagFrom_mem_bounds (ks : List Continuation) :
    ∀ (n : Nat) (p : Nat × Continuation), p ∈ tagFrom n ks →
      n < p.1 ∧ p.1 ≤ n + ks.length := by
  induction ks with
  | nil => intro n p hp; exact absurd hp (List.not_mem_nil _)
  | cons k ks ih =>
    intro n p hp
    rcases List.mem_cons.mp hp with heq | hmem
    · rw [heq]
      simp
    · have := ih (n + 1) p hmem
      simp only [List.length_cons]
      omega

lemma tagFrom_mem_snd (ks : List Continuation) :
    ∀ (n : Nat) (p : Nat × Continuation), p ∈ tagFrom n ks → p.2 ∈ ks := by
  induction ks with
  | nil => intro n p hp; exact absurd hp (List.not_mem_nil _)
  | cons k ks ih =>
    intro n p hp
    rcases List.mem_cons.mp hp with heq | hmem
    · rw [heq]
      exact List.mem_cons_self _ _
    · exact List.mem_cons_of_mem _ (ih (n + 1) p hmem)

lemma tagFrom_nodup_fst (ks : List Continuation) :
    ∀ n : Nat, ((tagFrom n ks).map Prod.fst).Nodup := by
  induction ks with
  | nil => intro n; simp [tagFrom]
  | cons k ks ih =>
    intro n
    simp only [tagFrom, List.map_cons, List.nodup_cons]
    refine ⟨?_, ih (n + 1)⟩
    intro hmem
    obtain ⟨p, hp, hfst⟩ := List.mem_map.mp hmem
    have := (tagFrom_mem_bounds ks (n + 1) p hp).1
    omega

lemma tagFrom_mem_of_bounds (ks : List Continuation) :
    ∀ (n id : Nat), n < id → id ≤ n + ks.length →
      ∃ k, (id, k) ∈ tagFrom n ks := by
  induction ks with
  | nil => intro n id h1 h2; simp at h1 h2; omega
  | cons k ks ih =>
    intro n id h1 h2
    by_cases hid : id = n + 1
    · exact ⟨k, by rw [hid]; exact List.mem_cons_self _ _⟩
    · obtain ⟨k', hk'⟩ := ih (n + 1) id (by omega)
        (by simp only [List.length_cons] at h2; omega)
      exact ⟨k', List.mem_cons_of_mem _ hk'⟩

lemma tagFrom_length (ks : List Continuation) : ∀ n, (tagFrom n ks).length = ks.length := by
  induction ks with
  | nil => intro n; rfl
  | cons k ks ih => intro n; simp [tagFrom, ih]

lemma totalSpawns_tagFrom (ks : List Continuation) :
    ∀ n, totalSpawns (tagFrom n ks) = (ks.map (fun k => k.spawns.length)).sum := by
  induction ks with
  | nil => intro n; rfl
  | cons k ks ih => intro n; simp [tagFrom, totalSpawns, List.map_cons] at ih ⊢; exact ih (n + 1)

lemma spawnQueue_length (rs : List (Nat × Continuation)) :
    ∀ n, (spawnQueue n rs).length = totalSpawns rs := by
  induction rs with
  | nil => intro n; rfl
  | cons r rs ih =>
    intro n
    simp only [spawnQueue, totalSpawns, List.length_append, List.map_cons, List.sum_cons]
    rw [tagFrom_length, List.length_map, ih (n + r.2.spawns.length)]
    rfl

lemma spawnQueue_mem_gt (rs : List (Nat × Continuation)) :
    ∀ (n : Nat) (p : Nat × Continuation), p ∈ spawnQueue n rs → n < p.1 := by
  induction rs with
  | nil => intro n p hp; exact absurd hp (List.not_mem_nil _)
  | cons r rs ih =>
    intro n p hp
    rcases List.mem_append.mp hp with hmem | hmem
    · exact (tagFrom_mem_bounds _ n p hmem).1
    · have := ih (n + r.2.spawns.length) p hmem
      omega

lemma spawnQueue_nil (rs : List (Nat × Continuation))
    (h : ∀ r ∈ rs, r.2.spawns = []) : ∀ n, spawnQueue n rs = [] := by
  induction rs with
  | nil => intro n; rfl
  | cons r rs ih =>
    intro n
    simp only [spawnQueue, h r (List.mem_cons_self _ _), List.map_nil, tagFrom,
      List.nil_append]
    exact ih (fun r hr => h r (List.mem_cons_of_mem _ hr)) _

end RequestQueue

namespace SingleFlight

/-- The state invariant of the single-flight machine: promise ids are
allocated in order, each promise settles at most once, a live in-flight
promise is unsettled, and the transport is invoked at most once per
promise. -/
structure Inv (s : St) : Prop where
  settled_lt : ∀ pr ∈ s.settledAs, pr.1 < s.nextPid
  inflight_lt : ∀ p, s.inflightPid = some p → p < s.nextPid
  settled_nodup : (s.settledAs.map Prod.fst).Nodup
  live_unsettled : ∀ p, s.inflightPid = some p → s.inflightSettled = false →
    p ∉ s.settledAs.map Prod.fst
  transport_nodup : s.transportFor.Nodup
  transport_lt : ∀ p ∈ s.transportFor, p < s.nextPid

lemma inv_init : Inv {} := by
  constructor <;> simp

lemma step_call_join (cfg : RefreshController.RefreshLimitsConfig) (s : St) (c : Nat)
    (t : Int) (p : Nat) (hin : s.inflightPid = some p) :
    step cfg s (.call c t) = { s with holds := (c, p) :: s.holds } := by
  simp only [step, hin]

lemma step_call_tripped (cfg : RefreshController.RefreshLimitsConfig) (s : St) (c : Nat)
    (t : Int) (e : Thrown) (hin : s.inflightPid = none)
    (hchk : RefreshController.checkRefreshLimits s.attempts cfg t = .error e) :
    step cfg s (.call c t) =
      { s with
        inflightPid := some s.nextPid
        inflightSettled := true
        attempts := s.attempts.filter (fun x => decide (t - x < cfg.refreshAttemptsWindow))
        settledAs := (s.nextPid, .error e) :: s.settledAs
        holds := (c, s.nextPid) :: s.holds
        nextPid := s.nextPid + 1 } := by
  simp only [step, hin, hchk]

lemma step_call_live (cfg : RefreshController.RefreshLimitsConfig) (s : St) (c : Nat)
    (t : Int) (att : List Int) (hin : s.inflightPid = none)
    (hchk : RefreshController.checkRefreshLimits s.attempts cfg t = .ok att) :
    step cfg s (.call c t) =
      { s with
        inflightPid := some s.nextPid
        inflightSettled := false
        attempts := att
        transportFor := s.nextPid :: s.transportFor
        holds := (c, s.nextPid) :: s.holds
        nextPid := s.nextPid + 1 } := by
  simp only [step, hin, hchk]

lemma step_settle_live (cfg : RefreshController.RefreshLimitsConfig) (s : St) (p : Nat)
    (r : Except Thrown TokenPair) (hin : s.inflightPid = some p)
    (hfl : s.inflightSettled = false) :
    step cfg s (.settle r) =
      { s with inflightPid := none, settledAs := (p, r) :: s.settledAs } := by
  simp only [step, hin, hfl]
  rfl

lemma step_settle_born (cfg : RefreshController.RefreshLimitsConfig) (s : St) (p : Nat)
    (r : Except Thrown TokenPair) (hin : s.inflightPid = some p)
    (hfl : s.inflightSettled = true) :
    step cfg s (.settle r) =
      { s with inflightPid := none, inflightSettled := false } := by
  simp only [step, hin, hfl]
  rfl

lemma inv_step (cfg : RefreshController.RefreshLimitsConfig) (s : St) (e : Ev)
    (h : Inv s) : Inv (step cfg s e) := by
  rcases e with ⟨c, t⟩ | r
  · rcases hin : s.inflightPid with _ | p
    · rcases hchk : RefreshController.checkRefreshLimits s.attempts cfg t with e | att
      · rw [step_call_tripped cfg s c t e hin hchk]
        refine ⟨?_, ?_, ?_, ?_, ?_, ?_⟩ <;> dsimp only
        · intro pr hpr
          rcases List.mem_cons.mp hpr with heq | hmem
          · rw [heq]; omega
          · have := h.settled_lt pr hmem; omega
        · intro p hp
          rw [Option.some.inj hp]; omega
        · simp only [List.map_cons, List.nodup_cons]
          refine ⟨?_, h.settled_nodup⟩
          intro hmem
          obtain ⟨pr, hpr, hfst⟩ := List.mem_map.mp hmem
          have := h.settled_lt pr hpr
          omega
        · intro p hp hset
          exact absurd hset (by simp)
        · exact h.transport_nodup
        · intro p hp
          have := h.transport_lt p hp; omega
      · rw [step_call_live cfg s c t att hin hchk]
        refine ⟨?_, ?_, ?_, ?_, ?_, ?_⟩ <;> dsimp only
        · intro pr hpr
          have := h.settled_lt pr hpr; omega
        · intro p hp
          rw [Option.some.inj hp]; omega
        · exact h.settled_nodup
        · intro p hp _
          rw [← Option.some.inj hp]
          intro hmem
          obtain ⟨pr, hpr, hfst⟩ := List.mem_map.mp hmem
          have := h.settled_lt pr hpr
          omega
        · simp only [List.nodup_cons]
          refine ⟨?_, h.transport_nodup⟩
          intro hmem
          have := h.transport_lt _ hmem
          omega
        · intro p hp
          rcases List.mem_cons.mp hp with heq | hmem
          · rw [heq]; omega
          · have := h.transport_lt p hmem; omega
    · rw [step_call_join cfg s c t p hin]
      exact ⟨h.settled_lt, h.inflight_lt, h.settled_nodup, h.live_unsettled,
        h.transport_nodup, h.transport_lt⟩
  · rcases hin : s.inflightPid with _ | p
    · have hstep : step cfg s (.settle r) = s := by
        simp only [step, hin]
      rw [hstep]
      exact h
    · rcases hfl : s.inflightSettled with _ | _
      · rw [step_settle_live cfg s p r hin hfl]
        refine ⟨?_, ?_, ?_, ?_, ?_, ?_⟩ <;> dsimp only
        · intro pr hpr
          rcases List.mem_cons.mp hpr with heq | hmem
          · rw [heq]
            exact h.inflight_lt p hin
          · exact h.settled_lt pr hmem
        · intro q hq
          exact absurd hq (by simp)
        · simp only [List.map_cons, List.nodup_cons]
          exact ⟨h.live_unsettled p hin hfl, h.settled_nodup⟩
        · intro q hq
          exact absurd hq (by simp)
        · exact h.transport_nodup
        · exact h.transport_lt
      · rw [step_settle_born cfg s p r hin hfl]
        refine ⟨?_, ?_, ?_, ?_, ?_, ?_⟩ <;> dsimp only
        · exact h.settled_lt
        · intro q hq
          exact absurd hq (by simp)
        · exact h.settled_nodup
        · intro q hq
          exact absurd hq (by simp)
        · exact h.transport_nodup
        · exact h.transport_lt

lemma inv_run (cfg : RefreshController.RefreshLimitsConfig) (evs : List Ev) :
    ∀ s : St, Inv s → Inv (run cfg s evs) := by
  induction evs with
  | nil => intro s h; exact h
  | cons e evs ih =>
    intro s h
    exact ih (step cfg s e) (inv_step cfg s e h)

lemma nodup_fst_functional {α β : Type} [DecidableEq α] (l : List (α × β))
    (h : (l.map Prod.fst).Nodup) (a : α) (b c : β)
    (hb : (a, b) ∈ l) (hc : (a, c) ∈ l) : b = c := by
  induction l with
  | nil => exact absurd hb (List.not_mem_nil _)
  | cons x l ih =>
    simp only [List.map_cons, List.nodup_cons] at h
    rcases List.mem_cons.mp hb with hbe | hbm <;> rcases List.mem_cons.mp hc with hce | hcm
    · exact (Prod.ext_iff.mp (hbe.trans hce.symm)).2
    · exfalso
      apply h.1
      rw [← hbe]
      show a ∈ l.map Prod.fst
      exact List.mem_map_of_mem Prod.fst hcm
    · exfalso
      apply h.1
      rw [← hce]
      show a ∈ l.map Prod.fst
      exact List.mem_map_of_mem Prod.fst hbm
    · exact ih h.2 hbm hcm

end SingleFlight

/-- C8 counterexample: the claim says every thrown value that is not an
already-classified auth error is wrapped with kind `REFRESH_FAILED`, but a
thrown value that is not an `Error` instance (here the string `"boom"`) is
wrapped with kind `UNKNOWN_ERROR` instead. -/
theorem c8_counterexample :
    RefreshController.normalizeError (.other (.str "boom")) =
      RefreshController.createAuthError "Unknown error during token refresh"
        .UNKNOWN_ERROR (some (.other (.str "boom"))) ∧
    (RefreshController.normalizeError (.other (.str "boom"))).codeProp =
      some (.str "UNKNOWN_ERROR") ∧
    (RefreshController.normalizeError (.other (.str "boom"))).codeProp ≠
      some (.str "REFRESH_FAILED") := by
  refine ⟨by with_unfolding_all rfl, by with_unfolding_all rfl, ?_⟩
  rw [show (RefreshController.normalizeError (.other (.str "boom"))).codeProp =
      some (.str "UNKNOWN_ERROR") by with_unfolding_all rfl]
  intro h
  have h1 := Option.some.inj h
  have h2 := JsValue.str.inj h1
  exact absurd h2 (by decide)

/-- C8 (amended): classification of a thrown refresh error is structural:
an `Error` whose `code` tag is a recognized `AuthErrorCode` value is
returned unchanged; any other `Error` is wrapped as `REFRESH_FAILED` and a
non-`Error` value as `UNKNOWN_ERROR`, both preserving the original value
as `originalError`; and the classification of an `Error` depends only on
its `code` tag, never on its message, cause, or identity. -/
theorem c8_structural_classification (m : String) (code : Option JsValue)
    (orig : Option Thrown) (v : JsValue) :
    (∀ e : Thrown, RefreshController.isAuthError e = true →
      RefreshController.normalizeError e = e) ∧
    (RefreshController.isAuthError (.err m code orig) = false →
      RefreshController.normalizeError (.err m code orig) =
        RefreshController.createAuthError m .REFRESH_FAILED (some (.err m code orig))) ∧
    (RefreshController.isAuthError (.other v) = false ∧
      RefreshController.normalizeError (.other v) =
        RefreshController.createAuthError "Unknown error during token refresh"
          .UNKNOWN_ERROR (some (.other v))) ∧
    (∀ (m' : String) (orig' : Option Thrown),
      RefreshController.isAuthError (.err m code orig) =
        RefreshController.isAuthError (.err m' code orig')) := by
  refine ⟨?_, ?_, ⟨rfl, ?_⟩, ?_⟩
  · intro e he
    unfold RefreshController.normalizeError
    rw [he]
    rfl
  · intro he
    unfold RefreshController.normalizeError
    rw [he]
    rfl
  · unfold RefreshController.normalizeError
    rfl
  · intro m' orig'
    rcases code with _ | cv
    · rfl
    · cases cv <;> rfl

/-- C8 witness: a plain `Error` (no `code` tag) is wrapped as
`REFRESH_FAILED` with itself preserved as `originalError`. -/
theorem c8_witness :
    RefreshController.normalizeError (.err "socket hang up" none none) =
      RefreshController.createAuthError "socket hang up" .REFRESH_FAILED
        (some (.err "socket hang up" none none)) :=
  (c8_structural_classification "socket hang up" none none (.str "x")).2.1
    (by with_unfolding_all rfl)

/-- C9 counterexample: the claim says `decode` returns `null` when the
payload is not a valid structured record, but a token whose middle segment
is the base64url encoding of the JSON text `123` decodes to the bare
number `123`, which is neither `null` nor a record. -/
theorem c9_counterexample :
    JWTDecoder.decode "a.MTIz.b" = some (.num 123) ∧
    JWTDecoder.decode "a.MTIz.b" ≠ none := by
  refine ⟨by with_unfolding_all rfl, ?_⟩
  rw [show JWTDecoder.decode "a.MTIz.b" = some (.num 123) by with_unfolding_all rfl]
  exact Option.noConfusion

/-- C9 (amended): `decode` is a total function into an optional value, so
it never throws; it returns `none` when the token does not split into
exactly three dot-separated segments, when the middle segment is not valid
base64url, or when the decoded payload is not valid JSON (or is the JSON
literal `null`); and whenever it returns a value, that value is the parsed
JSON payload of the middle segment — including non-record payloads such as
bare numbers, which are returned rather than rejected. -/
theorem c9_decode_totality (token a b c payload : String) (v : JsValue) :
    ((token.splitOn ".").length ≠ 3 → JWTDecoder.decode token = none) ∧
    (token.splitOn "." = [a, b, c] → JWTDecoder.base64UrlDecode b = .error () →
      JWTDecoder.decode token = none) ∧
    (token.splitOn "." = [a, b, c] → JWTDecoder.base64UrlDecode b = .ok payload →
      jsonParse payload = .error () → JWTDecoder.decode token = none) ∧
    (JWTDecoder.decode token = some v →
      ∃ x y z p, token.splitOn "." = [x, y, z] ∧ JWTDecoder.base64UrlDecode y = .ok p ∧
        jsonParse p = .ok v) := by
  refine ⟨?_, ?_, ?_, ?_⟩
  · intro h
    unfold JWTDecoder.decode
    rcases hs : token.splitOn "." with _ | ⟨x, _ | ⟨y, _ | ⟨z, _ | ⟨w, l⟩⟩⟩⟩ <;>
      simp_all
  · intro hs he
    unfold JWTDecoder.decode
    rw [hs]
    simp [he]
  · intro hs he hp
    unfold JWTDecoder.decode
    rw [hs]
    simp [he, hp]
  · intro hv
    unfold JWTDecoder.decode at hv
    rcases hs : token.splitOn "." with _ | ⟨x, _ | ⟨y, _ | ⟨z, _ | ⟨w, l⟩⟩⟩⟩ <;>
      rw [hs] at hv
    case cons.cons.cons.nil =>
      refine ⟨x, y, z, ?_⟩
      have hv2 : (match JWTDecoder.base64UrlDecode y with
          | .error _ => none
          | .ok decoded =>
            match jsonParse decoded with
            | .error _ => none
            | .ok .null => none
            | .ok v => some v) = some v := hv
      rcases he : JWTDecoder.base64UrlDecode y with u | p
      · rw [he] at hv2
        exact absurd hv2 (by simp)
      · rw [he] at hv2
        replace hv2 : (match jsonParse p with
            | .error _ => none
            | .ok .null => none
            | .ok w => some w) = some v := hv2
        split at hv2
        · exact absurd hv2 (by simp)
        · exact absurd hv2 (by simp)
        · next w hne heq =>
            exact ⟨p, rfl, rfl, by rw [heq, Option.some.inj hv2]⟩
    all_goals exact absurd hv (by simp)

/-- C9 witness: a well-formed JWT-shaped token decodes to the parsed
payload of its middle segment, and the malformed shapes return `none`. -/
theorem c9_witness :
    JWTDecoder.decode "onlytwo.parts" = none ∧
    JWTDecoder.decode "a.!!!!.b" = none ∧
    JWTDecoder.decode "a.ew.b" = none ∧
    (∃ x y z p, "e30.eyJleHAiOjEwMDB9.sig".splitOn "." = [x, y, z] ∧
      JWTDecoder.base64UrlDecode y = .ok p ∧
      jsonParse p = .ok (.obj [("exp", .num 1000)])) := by
  refine ⟨?_, ?_, ?_, ?_⟩
  · exact (c9_decode_totality "onlytwo.parts" "" "" "" "" (.num 0)).1 (by with_unfolding_all decide)
  · exact (c9_decode_totality "a.!!!!.b" "a" "!!!!" "b" "" (.num 0)).2.1
      (by with_unfolding_all rfl) (by with_unfolding_all rfl)
  · exact (c9_decode_totality "a.ew.b" "a" "ew" "b" "\x7b" (.num 0)).2.2.1
      (by with_unfolding_all rfl) (by with_unfolding_all rfl) (by with_unfolding_all rfl)
  · exact (c9_decode_totality "e30.eyJleHAiOjEwMDB9.sig" "" "" "" ""
      (.obj [("exp", .num 1000)])).2.2.2 (by with_unfolding_all rfl)

/-- C10: when no refresh token is stored, the installed refresh function
throws before reaching the network, with the unrecognized tag
`NO_REFRESH_TOKEN`; `normalizeError` therefore wraps it as a typed
`REFRESH_FAILED` auth error preserving the original, and a refresh
operation driven by that transport rejects with kind `REFRESH_FAILED`. -/
theorem c10_no_refresh_token :
    AuxiosClient.setupRefreshFnGuard none = .threw AuxiosClient.noRefreshTokenError ∧
    RefreshController.isAuthError AuxiosClient.noRefreshTokenError = false ∧
    (RefreshController.normalizeError AuxiosClient.noRefreshTokenError).codeProp =
      some (.str "REFRESH_FAILED") ∧
    (RefreshController.normalizeError AuxiosClient.noRefreshTokenError).origProp =
      some AuxiosClient.noRefreshTokenError ∧
    (RefreshController.performRefresh [] ⟨3, 60000⟩ 0
      (.error AuxiosClient.noRefreshTokenError)).errorCode = some (.str "REFRESH_FAILED") ∧
    (RefreshController.performRefresh [] ⟨3, 60000⟩ 0
      (.error AuxiosClient.noRefreshTokenError)).transportInvoked = true := by
  refine ⟨rfl, by with_unfolding_all rfl, by with_unfolding_all rfl, by with_unfolding_all rfl,
    by with_unfolding_all rfl, by with_unfolding_all rfl⟩

/-- C5: the stored expiry instant prefers a positive `expiresIn` over the
JWT `exp` claim: `setTokens` stores `now + expiresIn` whenever it is
present and positive — for any access token string whatsoever — and
`isAccessTokenExpired` then compares against that instant, not the
JWT-derived one; without a usable `expiresIn` the instant falls back to
the decoded `exp` claim, and with an undecodable token (null instant) the
access token is treated as already expired. -/
theorem c5_expiry_priority (cfg : TokenExpiryConfig) (pair : TokenPair)
    (e nowMs nowMs2 : ℚ) (t : String) :
    (pair.expiresIn = some e → e > 0 →
      (TokenManager.setTokens pair cfg nowMs).expiresAt = some (nowMs / 1000 + e)) ∧
    (pair.expiresIn = some e → e > 0 → pair.accessToken.isEmpty = false →
      TokenManager.isAccessTokenExpired (TokenManager.setTokens pair cfg nowMs) nowMs2 =
        decide (nowMs2 / 1000 ≥ nowMs / 1000 + e)) ∧
    (t.isEmpty = false →
      TokenManager.calculateExpiryTime none (some t) nowMs =
        (JWTDecoder.decode t).bind JWTDecoder.jsGetExp) ∧
    (pair.expiresIn = none → pair.accessToken = t → t.isEmpty = false →
      JWTDecoder.decode t = none →
      TokenManager.isAccessTokenExpired (TokenManager.setTokens pair cfg nowMs) nowMs2 = true) := by
  have hcalc : pair.expiresIn = some e → e > 0 →
      TokenManager.calculateExpiryTime pair.expiresIn (some pair.accessToken) nowMs =
        some (nowMs / 1000 + e) := by
    intro hpe hpos
    rw [hpe]
    unfold TokenManager.calculateExpiryTime
    simp [hpos]
  refine ⟨?_, ?_, ?_, ?_⟩
  · intro hpe hpos
    show TokenManager.calculateExpiryTime pair.expiresIn (some pair.accessToken) nowMs = _
    exact hcalc hpe hpos
  · intro hpe hpos hne
    unfold TokenManager.isAccessTokenExpired
    show (match (TokenManager.setTokens pair cfg nowMs).storedAccess with
      | none => true
      | some token => _) = _
    rw [show (TokenManager.setTokens pair cfg nowMs).storedAccess = some pair.accessToken
      from rfl]
    rw [show (TokenManager.setTokens pair cfg nowMs).expiresAt =
        TokenManager.calculateExpiryTime pair.expiresIn (some pair.accessToken) nowMs from rfl,
      hcalc hpe hpos]
    simp [hne]
  · intro hne
    unfold TokenManager.calculateExpiryTime
    simp [hne]
  · intro hpe hat hne hdec
    unfold TokenManager.isAccessTokenExpired
    rw [show (TokenManager.setTokens pair cfg nowMs).storedAccess = some pair.accessToken
      from rfl]
    rw [show (TokenManager.setTokens pair cfg nowMs).expiresAt =
        TokenManager.calculateExpiryTime pair.expiresIn (some pair.accessToken) nowMs from rfl]
    unfold TokenManager.calculateExpiryTime
    rw [hpe, hat]
    simp only [hne, Bool.false_eq_true, if_false, hdec, Option.none_bind]
    unfold JWTDecoder.isExpired JWTDecoder.getExpiry
    rw [hdec]
    simp [hne]

/-- C5 witness: with `expiresIn = 60` at `now = 500s` and a JWT whose
`exp` claim is `1000` (a different lifetime), the token counts as expired
at `560.5s` — following the `expiresIn`-derived instant `560`, not the
JWT instant; and an undecodable token without `expiresIn` is expired. -/
theorem c5_witness :
    (TokenManager.setTokens
      ⟨"e30.eyJleHAiOjEwMDB9.sig", "r1", some 60, none⟩ ⟨300⟩ 500000).expiresAt = some 560 ∧
    TokenManager.isAccessTokenExpired
      (TokenManager.setTokens
        ⟨"e30.eyJleHAiOjEwMDB9.sig", "r1", some 60, none⟩ ⟨300⟩ 500000) 560500 = true ∧
    TokenManager.isAccessTokenExpired
      (TokenManager.setTokens ⟨"garbage", "r1", none, none⟩ ⟨300⟩ 500000) 500100 = true := by
  refine ⟨?_, ?_, ?_⟩
  · have h := (c5_expiry_priority ⟨300⟩ ⟨"e30.eyJleHAiOjEwMDB9.sig", "r1", some 60, none⟩
      60 500000 560500 "x").1 rfl (by norm_num)
    rw [h]
    with_unfolding_all rfl
  · have h := (c5_expiry_priority ⟨300⟩ ⟨"e30.eyJleHAiOjEwMDB9.sig", "r1", some 60, none⟩
      60 500000 560500 "x").2.1 rfl (by norm_num) rfl
    rw [h]
    with_unfolding_all rfl
  · exact (c5_expiry_priority ⟨300⟩ ⟨"garbage", "r1", none, none⟩ 60 500000 500100
      "garbage").2.2.2 rfl rfl rfl (by with_unfolding_all rfl)

/-- C6: with a known positive time-until-expiry `T`, the armed proactive
timer delay is `(T - min(offset, 0.8 T)) * 1000` milliseconds floored at
`MIN_DELAY`; the delay is never negative and never below the floor; with
`offset = 300` and `T = 3600` the delay is exactly 3,300,000 ms (the
refresh fires at T+3300s); and with `T ≤ 0` no timer is armed. -/
theorem c6_proactive_delay (cfg : TokenExpiryConfig) (ea nowMs : ℚ) (tok : String) :
    (ea - nowMs / 1000 > 0 →
      TokenManager.scheduleProactiveRefresh (some ea) cfg tok nowMs =
        some (max TokenManager.MIN_DELAY
          ((ea - nowMs / 1000 -
            min cfg.proactiveRefreshOffset ((ea - nowMs / 1000) * (8 / 10))) * 1000))) ∧
    (∀ d, TokenManager.scheduleProactiveRefresh (some ea) cfg tok nowMs = some d →
      d ≥ TokenManager.MIN_DELAY ∧ d ≥ 0) ∧
    (ea - nowMs / 1000 ≤ 0 →
      TokenManager.scheduleProactiveRefresh (some ea) cfg tok nowMs = none) ∧
    (cfg.proactiveRefreshOffset = 300 → ea - nowMs / 1000 = 3600 →
      TokenManager.scheduleProactiveRefresh (some ea) cfg tok nowMs = some 3300000) := by
  have hmax : ∀ q : ℚ, 0 < q → max 0 q = q := fun q hq => max_eq_right hq.le
  have hred : TokenManager.scheduleProactiveRefresh (some ea) cfg tok nowMs =
      (if max 0 (ea - nowMs / 1000) ≤ 0 then none
       else some (max TokenManager.MIN_DELAY
         ((max 0 (ea - nowMs / 1000) -
           min cfg.proactiveRefreshOffset (max 0 (ea - nowMs / 1000) * (8 / 10))) * 1000))) := rfl
  refine ⟨?_, ?_, ?_, ?_⟩
  · intro hT
    rw [hred, hmax _ hT, if_neg (not_le.mpr hT)]
  · intro d hd
    rw [hred] at hd
    by_cases hT : max 0 (ea - nowMs / 1000) ≤ 0
    · rw [if_pos hT] at hd
      exact absurd hd (by simp)
    · rw [if_neg hT] at hd
      have hdm := Option.some.inj hd
      constructor
      · rw [← hdm]
        exact le_max_left _ _
      · rw [← hdm]
        have h0 : (0 : ℚ) ≤ TokenManager.MIN_DELAY := by norm_num [TokenManager.MIN_DELAY]
        exact h0.trans (le_max_left _ _)
  · intro hT
    rw [hred, if_pos]
    rw [max_eq_left hT]
  · intro hoff hT
    rw [hred, hT, hoff]
    norm_num [TokenManager.MIN_DELAY]

/-- C1: single-flight refresh.  In every reachable coordinator state:
a `refresh()` call made while a promise is in flight returns that same
promise, starts no new operation and does not invoke the transport; each
promise settles with exactly one outcome, so all callers holding it
observe the identical result; the transport is invoked at most once per
promise, and exactly once at the start of every window that passes the
rate-ceiling check; and once the in-flight operation settles the shared
reference is released, so the next call starts a fresh operation on a new,
never-settled promise. -/
theorem c1_single_flight (cfg : RefreshController.RefreshLimitsConfig)
    (evs : List SingleFlight.Ev) (c : Nat) (t : Int) (p : Nat)
    (r o o' : Except Thrown TokenPair) :
    (((SingleFlight.run cfg {} evs).inflightPid = some p →
      (SingleFlight.step cfg (SingleFlight.run cfg {} evs) (.call c t)).holds =
        (c, p) :: (SingleFlight.run cfg {} evs).holds ∧
      (SingleFlight.step cfg (SingleFlight.run cfg {} evs) (.call c t)).transportFor =
        (SingleFlight.run cfg {} evs).transportFor ∧
      (SingleFlight.step cfg (SingleFlight.run cfg {} evs) (.call c t)).nextPid =
        (SingleFlight.run cfg {} evs).nextPid)) ∧
    ((p, o) ∈ (SingleFlight.run cfg {} evs).settledAs →
      (p, o') ∈ (SingleFlight.run cfg {} evs).settledAs → o = o') ∧
    (SingleFlight.run cfg {} evs).transportFor.Nodup ∧
    ((SingleFlight.run cfg {} evs).inflightPid = none →
      ∀ att, RefreshController.checkRefreshLimits
        (SingleFlight.run cfg {} evs).attempts cfg t = .ok att →
      (SingleFlight.step cfg (SingleFlight.run cfg {} evs) (.call c t)).transportFor =
        (SingleFlight.run cfg {} evs).nextPid ::
          (SingleFlight.run cfg {} evs).transportFor) ∧
    ((SingleFlight.run cfg {} evs).inflightPid = some p →
      (SingleFlight.step cfg (SingleFlight.run cfg {} evs) (.settle r)).inflightPid = none ∧
      (SingleFlight.step cfg
        (SingleFlight.step cfg (SingleFlight.run cfg {} evs) (.settle r))
        (.call c t)).holds.head? = some (c, (SingleFlight.run cfg {} evs).nextPid) ∧
      p < (SingleFlight.run cfg {} evs).nextPid ∧
      (((SingleFlight.run cfg {} evs).nextPid, o) ∉
        (SingleFlight.run cfg {} evs).settledAs)) := by
  have hinv := SingleFlight.inv_run cfg evs {} SingleFlight.inv_init
  refine ⟨?_, ?_, hinv.transport_nodup, ?_, ?_⟩
  · intro hin
    rw [SingleFlight.step_call_join cfg _ c t p hin]
    exact ⟨rfl, rfl, rfl⟩
  · intro h1 h2
    exact SingleFlight.nodup_fst_functional _ hinv.settled_nodup p o o' h1 h2
  · intro hin att hchk
    rw [SingleFlight.step_call_live cfg _ c t att hin hchk]
  · intro hin
    have hrel : ∀ s2, s2 = SingleFlight.step cfg (SingleFlight.run cfg {} evs) (.settle r) →
        s2.inflightPid = none ∧ s2.nextPid = (SingleFlight.run cfg {} evs).nextPid ∧
        s2.attempts = (SingleFlight.run cfg {} evs).attempts ∧
        s2.holds = (SingleFlight.run cfg {} evs).holds := by
      intro s2 hs2
      rcases hfl : (SingleFlight.run cfg {} evs).inflightSettled with _ | _
      · rw [hs2, SingleFlight.step_settle_live cfg _ p r hin hfl]
        exact ⟨rfl, rfl, rfl, rfl⟩
      · rw [hs2, SingleFlight.step_settle_born cfg _ p r hin hfl]
        exact ⟨rfl, rfl, rfl, rfl⟩
    obtain ⟨hs2in, hs2pid, hs2att, hs2holds⟩ := hrel _ rfl
    refine ⟨hs2in, ?_, hinv.inflight_lt p hin, ?_⟩
    · rcases hchk2 : RefreshController.checkRefreshLimits
        (SingleFlight.step cfg (SingleFlight.run cfg {} evs) (.settle r)).attempts cfg t
        with e2 | att2
      · rw [SingleFlight.step_call_tripped cfg _ c t e2 hs2in hchk2]
        dsimp only
        rw [hs2pid]
        rfl
      · rw [SingleFlight.step_call_live cfg _ c t att2 hs2in hchk2]
        dsimp only
        rw [hs2pid]
        rfl
    · intro hmem
      have := hinv.settled_lt _ hmem
      omega

/-- C1 witness: after one `refresh()` call at time 0 under limits 3/60 s a
promise 0 is in flight; a second call joins it without a new transport
invocation, and after settlement a third call starts the fresh promise 1.
-/
theorem c1_witness :
    (SingleFlight.step ⟨3, 60000⟩ (SingleFlight.run ⟨3, 60000⟩ {} [.call 0 0])
      (.call 1 5)).holds =
      (1, 0) :: (SingleFlight.run ⟨3, 60000⟩ {} [.call 0 0]).holds ∧
    (SingleFlight.step ⟨3, 60000⟩ (SingleFlight.run ⟨3, 60000⟩ {} [.call 0 0])
      (.call 1 5)).transportFor =
      (SingleFlight.run ⟨3, 60000⟩ {} [.call 0 0]).transportFor ∧
    (SingleFlight.step ⟨3, 60000⟩
      (SingleFlight.step ⟨3, 60000⟩ (SingleFlight.run ⟨3, 60000⟩ {} [.call 0 0])
        (.settle (.ok ⟨"newA", "newR", none, none⟩)))
      (.call 2 9)).holds.head? =
      some (2, (SingleFlight.run ⟨3, 60000⟩ {} [.call 0 0]).nextPid) := by
  have h := c1_single_flight ⟨3, 60000⟩ [.call 0 0] 1 5 0
    (.ok ⟨"newA", "newR", none, none⟩) (.ok ⟨"newA", "newR", none, none⟩)
    (.ok ⟨"newA", "newR", none, none⟩)
  have h2 := c1_single_flight ⟨3, 60000⟩ [.call 0 0] 2 9 0
    (.ok ⟨"newA", "newR", none, none⟩) (.ok ⟨"newA", "newR", none, none⟩)
    (.ok ⟨"newA", "newR", none, none⟩)
  have hin : (SingleFlight.run ⟨3, 60000⟩ {} [.call 0 0]).inflightPid = some 0 := by
    with_unfolding_all rfl
  obtain ⟨ha, _, _⟩ := h.1 hin
  exact ⟨ha, (h.1 hin).2.1, (h2.2.2.2.2 hin).2.1⟩

/-- C2: with an always-rejecting transport, `maxRefreshAttempts` settled
`refresh()` calls within the window leave exactly those attempt
timestamps recorded; the next call inside the window rejects with
`MAX_REFRESH_ATTEMPTS_EXCEEDED`, does not invoke the transport, emits
nothing, and does not record the attempt — the ceiling check runs before
the transport call and before the attempt is recorded. -/
theorem c2_rate_ceiling (cfg : RefreshController.RefreshLimitsConfig) (errT : Thrown)
    (ts : List Int) (t : Int)
    (hlen : ts.length = cfg.maxRefreshAttempts)
    (hle : ∀ x ∈ ts, x ≤ t)
    (hwin : ∀ x ∈ ts, t - x < cfg.refreshAttemptsWindow)
    (hsort : ts.Pairwise (· ≤ ·)) :
    RefreshController.runAttempts cfg (.error errT) [] ts = ts ∧
    (RefreshController.performRefresh ts cfg t (.error errT)).errorCode =
      some (.str "MAX_REFRESH_ATTEMPTS_EXCEEDED") ∧
    (RefreshController.performRefresh ts cfg t (.error errT)).transportInvoked = false ∧
    (RefreshController.performRefresh ts cfg t (.error errT)).attemptsAfter = ts ∧
    (RefreshController.performRefresh ts cfg t (.error errT)).events = [] := by
  have hpairw : ts.Pairwise (fun a b => b - a < cfg.refreshAttemptsWindow) := by
    refine List.Pairwise.imp_of_mem ?_ hsort
    intro a b ha hb hab
    have h1 := hle b hb
    have h2 := hwin a ha
    omega
  have hfilter : ts.filter (fun x => decide (t - x < cfg.refreshAttemptsWindow)) = ts :=
    List.filter_eq_self.mpr (fun x hx => by
      simp only [decide_eq_true_eq]
      exact hwin x hx)
  have htrip := RefreshController.checkRefreshLimits_tripped ts cfg t
    (by rw [hfilter, hlen])
  have hperf := RefreshController.performRefresh_tripped ts cfg t (.error errT) _ htrip
  refine ⟨?_, ?_, ?_, ?_, ?_⟩
  · exact RefreshController.runAttempts_all_within cfg (.error errT) ts []
      (by simp [hlen]) (by simp) hpairw
  · rw [hperf]
    rfl
  · rw [hperf]
  · rw [hperf]
    exact hfilter
  · rw [hperf]

/-- C2 witness: ceiling 3 within 60 s; after calls at 0, 10, 20 ms the
call at 30 ms rejects with `MAX_REFRESH_ATTEMPTS_EXCEEDED`, leaves the
record at the three earlier instants, and never reaches the transport. -/
theorem c2_witness :
    RefreshController.runAttempts ⟨3, 60000⟩ (.error (.err "HTTP 401" none none)) [] [0, 10, 20] =
      [0, 10, 20] ∧
    (RefreshController.performRefresh [0, 10, 20] ⟨3, 60000⟩ 30
      (.error (.err "HTTP 401" none none))).errorCode =
      some (.str "MAX_REFRESH_ATTEMPTS_EXCEEDED") ∧
    (RefreshController.performRefresh [0, 10, 20] ⟨3, 60000⟩ 30
      (.error (.err "HTTP 401" none none))).transportInvoked = false ∧
    (RefreshController.performRefresh [0, 10, 20] ⟨3, 60000⟩ 30
      (.error (.err "HTTP 401" none none))).attemptsAfter = [0, 10, 20] ∧
    (RefreshController.performRefresh [0, 10, 20] ⟨3, 60000⟩ 30
      (.error (.err "HTTP 401" none none))).events = [] :=
  c2_rate_ceiling ⟨3, 60000⟩ (.err "HTTP 401" none none) [0, 10, 20] 30
    (by decide) (by decide) (by decide) (by decide)

/-- C3 counterexample: the claim says the queue is empty after
`retryAll()` returns, but when a drained continuation itself enqueues a
new continuation during the drain, that continuation is still queued when
`retryAll` returns. -/
theorem c3_counterexample :
    (RequestQueue.retryAll (RequestQueue.mkQueue
      [{ result := .ok (.num 1), spawns := [.ok (.num 2)] }])).queue.length = 1 ∧
    (RequestQueue.retryAll (RequestQueue.mkQueue
      [{ result := .ok (.num 1), spawns := [.ok (.num 2)] }])).queue ≠ [] := by
  refine ⟨by with_unfolding_all rfl, ?_⟩
  intro h
  have hlen : (RequestQueue.retryAll (RequestQueue.mkQueue
      [{ result := .ok (.num 1), spawns := [.ok (.num 2)] }])).queue.length = 1 := by
    with_unfolding_all rfl
  rw [h] at hlen
  exact absurd hlen (by simp)

/-- C3 (amended): every continuation of the drained generation is settled
exactly once — `rejectAll(e)` rejects each pending promise with the same
error value `e` and leaves the queue empty; `retryAll` settles each
drained continuation with its own outcome (one continuation's failure does
not prevent the others from settling), and leaves the queue holding
exactly the continuations enqueued during the drain, hence empty whenever
no drained continuation enqueues. -/
theorem c3_queue_drain (ks : List RequestQueue.Continuation) (e : Thrown) (id : Nat) :
    (RequestQueue.rejectAll (RequestQueue.mkQueue ks) e).queue = [] ∧
    (1 ≤ id → id ≤ ks.length →
      (RequestQueue.rejectAll (RequestQueue.mkQueue ks) e).promises id =
        ⟨.rejectedWith e, 1⟩) ∧
    (∀ k, (id, k) ∈ (RequestQueue.mkQueue ks).queue →
      (RequestQueue.retryAll (RequestQueue.mkQueue ks)).promises id =
        ⟨RequestQueue.settleOf k.result, 1⟩) ∧
    ((∀ k ∈ ks, k.spawns = []) →
      (RequestQueue.retryAll (RequestQueue.mkQueue ks)).queue = []) := by
  have hmk := RequestQueue.mkQueue_eq ks
  refine ⟨rfl, ?_, ?_, ?_⟩
  · intro h1 h2
    rw [RequestQueue.rejectAll_eq, hmk]
    obtain ⟨k, hk⟩ := RequestQueue.tagFrom_mem_of_bounds ks 0 id (by omega) (by omega)
    exact RequestQueue.settle_fold_mem (fun _ => .rejectedWith e) (RequestQueue.tagFrom 0 ks)
      (fun _ => RequestQueue.PromiseCell.initial) id k
      (RequestQueue.tagFrom_nodup_fst ks 0) hk rfl
  · intro k hk
    rw [hmk] at hk
    rw [RequestQueue.retryAll_eq, hmk]
    have h1 : ((RequestQueue.tagFrom 0 ks).foldl
        (fun ps r => RequestQueue.settleAt ps r.1 (RequestQueue.settleOf r.2.result))
        (fun _ => RequestQueue.PromiseCell.initial)) id =
        ⟨RequestQueue.settleOf k.result, 1⟩ :=
      RequestQueue.settle_fold_mem (fun r => RequestQueue.settleOf r.2.result)
        (RequestQueue.tagFrom 0 ks) (fun _ => RequestQueue.PromiseCell.initial) id k
        (RequestQueue.tagFrom_nodup_fst ks 0) hk rfl
    have h2 := RequestQueue.pass2_preserves (RequestQueue.tagFrom 0 ks)
      ((RequestQueue.tagFrom 0 ks).foldl
        (fun ps r => RequestQueue.settleAt ps r.1 (RequestQueue.settleOf r.2.result))
        (fun _ => RequestQueue.PromiseCell.initial)) id
      (by rw [h1]; exact RequestQueue.settleOf_not_pending k.result)
    exact h2.trans h1
  · intro hall
    rw [RequestQueue.retryAll_eq, hmk]
    show RequestQueue.spawnQueue ks.length (RequestQueue.tagFrom 0 ks) = []
    exact RequestQueue.spawnQueue_nil (RequestQueue.tagFrom 0 ks)
      (fun r hr => hall r.2 (RequestQueue.tagFrom_mem_snd ks 0 r hr)) ks.length

/-- C3 witness: a queue of three continuations — success, failure, and a
failure after the first — drains completely: `rejectAll` rejects all three
with the shared error, `retryAll` resolves the first and rejects the other
two with their own failures, each promise settling exactly once. -/
theorem c3_witness :
    (RequestQueue.rejectAll (RequestQueue.mkQueue
      [{ result := .ok (.num 7) }, { result := .error (.err "a" none none) },
       { result := .error (.err "b" none none) }]) (.err "shared" none none)).promises 2 =
      ⟨.rejectedWith (.err "shared" none none), 1⟩ ∧
    (RequestQueue.retryAll (RequestQueue.mkQueue
      [{ result := .ok (.num 7) }, { result := .error (.err "a" none none) },
       { result := .error (.err "b" none none) }])).promises 1 =
      ⟨.resolvedWith (.num 7), 1⟩ ∧
    (RequestQueue.retryAll (RequestQueue.mkQueue
      [{ result := .ok (.num 7) }, { result := .error (.err "a" none none) },
       { result := .error (.err "b" none none) }])).promises 3 =
      ⟨.rejectedWith (.err "b" none none), 1⟩ ∧
    (RequestQueue.retryAll (RequestQueue.mkQueue
      [{ result := .ok (.num 7) }, { result := .error (.err "a" none none) },
       { result := .error (.err "b" none none) }])).queue = [] := by
  refine ⟨?_, ?_, ?_, ?_⟩
  · exact (c3_queue_drain
      [{ result := .ok (.num 7) }, { result := .error (.err "a" none none) },
       { result := .error (.err "b" none none) }] (.err "shared" none none) 2).2.1
      (by decide) (by decide)
  · exact (c3_queue_drain
      [{ result := .ok (.num 7) }, { result := .error (.err "a" none none) },
       { result := .error (.err "b" none none) }] (.err "shared" none none) 1).2.2.1
      { result := .ok (.num 7) } (by with_unfolding_all exact List.mem_cons_self _ _)
  · exact (c3_queue_drain
      [{ result := .ok (.num 7) }, { result := .error (.err "a" none none) },
       { result := .error (.err "b" none none) }] (.err "shared" none none) 3).2.2.1
      { result := .error (.err "b" none none) }
      (by with_unfolding_all exact List.Mem.tail _ (List.Mem.tail _ (List.mem_cons_self _ _)))
  · exact (c3_queue_drain
      [{ result := .ok (.num 7) }, { result := .error (.err "a" none none) },
       { result := .error (.err "b" none none) }] (.err "shared" none none) 1).2.2.2
      (by intro k hk; rcases hk with _ | ⟨_, hk⟩
          · rfl
          · rcases hk with _ | ⟨_, hk⟩
            · rfl
            · rcases hk with _ | ⟨_, hk⟩
              · rfl
              · exact absurd hk (List.not_mem_nil _))

/-- C7: `retryAll` snapshots and clears before invoking any continuation,
so a continuation enqueued during the drain lands in the next queue
generation: after `retryAll` returns, the queue holds exactly the
continuations enqueued during the drain (one per spawn), each with a
fresh id outside the drained generation and a still-pending, untouched
promise — neither settled nor dropped by the in-progress drain. -/
theorem c7_snapshot_then_clear (ks : List RequestQueue.Continuation) :
    (RequestQueue.retryAll (RequestQueue.mkQueue ks)).queue.length =
      (ks.map (fun k => k.spawns.length)).sum ∧
    (∀ p ∈ (RequestQueue.retryAll (RequestQueue.mkQueue ks)).queue,
      ks.length < p.1 ∧
      (RequestQueue.retryAll (RequestQueue.mkQueue ks)).promises p.1 =
        RequestQueue.PromiseCell.initial ∧
      p.1 ∉ (RequestQueue.mkQueue ks).queue.map Prod.fst) := by
  have hmk := RequestQueue.mkQueue_eq ks
  constructor
  · rw [RequestQueue.retryAll_eq, hmk]
    show (RequestQueue.spawnQueue ks.length (RequestQueue.tagFrom 0 ks)).length = _
    rw [RequestQueue.spawnQueue_length, RequestQueue.totalSpawns_tagFrom]
  · intro p hp
    rw [RequestQueue.retryAll_eq, hmk] at hp
    replace hp : p ∈ RequestQueue.spawnQueue ks.length (RequestQueue.tagFrom 0 ks) := hp
    have hgt := RequestQueue.spawnQueue_mem_gt (RequestQueue.tagFrom 0 ks) ks.length p hp
    have hout : p.1 ∉ (RequestQueue.tagFrom 0 ks).map Prod.fst := by
      intro hmem
      obtain ⟨q, hq, hfst⟩ := List.mem_map.mp hmem
      have := (RequestQueue.tagFrom_mem_bounds ks 0 q hq).2
      omega
    refine ⟨hgt, ?_, ?_⟩
    · rw [RequestQueue.retryAll_eq, hmk]
      have h1 := RequestQueue.fold_eval_out
        (fun ps r => RequestQueue.settleAt ps r.1 (RequestQueue.settleOf r.2.result))
        (fun ps r j hj => RequestQueue.settleAt_ne ps r.1 _ j hj)
        (RequestQueue.tagFrom 0 ks) (fun _ => RequestQueue.PromiseCell.initial) p.1 hout
      have h2 := RequestQueue.fold_eval_out
        (fun (ps : Nat → RequestQueue.PromiseCell) (r : Nat × RequestQueue.Continuation) =>
          match r.2.result with
          | .error e => RequestQueue.settleAt ps r.1 (.rejectedWith e)
          | .ok _ => ps)
        (fun ps r j hj => by
          rcases hr : r.2.result with e | v
          · simp only [hr]
            exact RequestQueue.settleAt_ne ps r.1 _ j hj
          · simp only [hr])
        (RequestQueue.tagFrom 0 ks)
        ((RequestQueue.tagFrom 0 ks).foldl
          (fun ps r => RequestQueue.settleAt ps r.1 (RequestQueue.settleOf r.2.result))
          (fun _ => RequestQueue.PromiseCell.initial)) p.1 hout
      exact h2.trans h1
    · rw [hmk]
      exact hout

/-- C7 witness: draining a generation of two continuations, the second of
which enqueues one new continuation mid-drain: the new continuation gets
the fresh id 3, stays queued and pending after the drain, and is not part
of the drained generation `{1, 2}`. -/
theorem c7_witness :
    (RequestQueue.retryAll (RequestQueue.mkQueue
      [{ result := .ok (.num 1) },
       { result := .error (.err "x" none none), spawns := [.ok (.num 9)] }])).queue.length = 1 ∧
    (2 < (3 : Nat) ∧
      (RequestQueue.retryAll (RequestQueue.mkQueue
        [{ result := .ok (.num 1) },
         { result := .error (.err "x" none none), spawns := [.ok (.num 9)] }])).promises 3 =
        RequestQueue.PromiseCell.initial ∧
      (3 : Nat) ∉ (RequestQueue.mkQueue
        [{ result := .ok (.num 1) },
         { result := .error (.err "x" none none),
           spawns := [.ok (.num 9)] }]).queue.map Prod.fst) := by
  constructor
  · exact (c7_snapshot_then_clear
      [{ result := .ok (.num 1) },
       { result := .error (.err "x" none none), spawns := [.ok (.num 9)] }]).1
  · exact (c7_snapshot_then_clear
      [{ result := .ok (.num 1) },
       { result := .error (.err "x" none none), spawns := [.ok (.num 9)] }]).2
      (3, { result := .ok (.num 9) })
      (by with_unfolding_all exact List.mem_cons_self _ _)

/-- C4 counterexample: the claim says a refresh-ending signal is emitted
in a final step on every refresh operation regardless of outcome, but an
operation rejected by the rate-ceiling check fails without emitting any
signal at all — the ceiling check sits before the `try`/`finally`. -/
theorem c4_counterexample :
    (RefreshController.performRefresh [0] ⟨1, 60000⟩ 5
      (.error (.err "boom" none none))).events = [] ∧
    (RefreshController.performRefresh [0] ⟨1, 60000⟩ 5
      (.error (.err "boom" none none))).events.getLast? ≠ some .refreshEnd ∧
    (RefreshController.performRefresh [0] ⟨1, 60000⟩ 5
      (.error (.err "boom" none none))).errorCode =
      some (.str "MAX_REFRESH_ATTEMPTS_EXCEEDED") := by
  refine ⟨by with_unfolding_all rfl, ?_, by with_unfolding_all rfl⟩
  rw [show (RefreshController.performRefresh [0] ⟨1, 60000⟩ 5
      (.error (.err "boom" none none))).events = [] by with_unfolding_all rfl]
  simp

/-- C4 (amended): on every refresh operation that passes the rate-ceiling
check, a transport rejection is classified once into a single typed auth
error that is (a) emitted on the auth-error event, (b) used to reject
every request pending in the queue via `rejectAll`, and (c) thrown to the
caller — the same value in all three deliveries — and a refresh-ending
signal is emitted as the final step whether the transport resolves or
rejects; a ceiling-rejected operation emits no signals. -/
theorem c4_error_propagation (attempts : List Int)
    (cfg : RefreshController.RefreshLimitsConfig) (now : Int) (err : Thrown)
    (resp : RefreshResponse)
    (hpass : (attempts.filter
      (fun x => decide (now - x < cfg.refreshAttemptsWindow))).length <
      cfg.maxRefreshAttempts) :
    (RefreshController.performRefresh attempts cfg now (.error err)).result =
      .error (RefreshController.normalizeError err) ∧
    (RefreshController.performRefresh attempts cfg now (.error err)).events =
      [.refreshStart, .authError (RefreshController.normalizeError err),
       .rejectAllQueue (RefreshController.normalizeError err), .refreshEnd] ∧
    (RefreshController.performRefresh attempts cfg now (.error err)).events.getLast? =
      some .refreshEnd ∧
    (RefreshController.performRefresh attempts cfg now (.ok resp)).events.getLast? =
      some .refreshEnd ∧
    (∀ (ks : List RequestQueue.Continuation) (id : Nat) (k : RequestQueue.Continuation),
      (id, k) ∈ (RequestQueue.mkQueue ks).queue →
      (RequestQueue.rejectAll (RequestQueue.mkQueue ks)
        (RefreshController.normalizeError err)).promises id =
        ⟨.rejectedWith (RefreshController.normalizeError err), 1⟩) := by
  have hok := RefreshController.checkRefreshLimits_ok attempts cfg now hpass
  have herr := RefreshController.performRefresh_transport_error attempts cfg now err _ hok
  have hsucc := RefreshController.performRefresh_transport_ok attempts cfg now resp _ hok
  refine ⟨?_, ?_, ?_, ?_, ?_⟩
  · rw [herr]
  · rw [herr]
  · rw [herr]
    rfl
  · rw [hsucc]
    rfl
  · intro ks id k hk
    rw [RequestQueue.mkQueue_eq] at hk
    rw [RequestQueue.rejectAll_eq, RequestQueue.mkQueue_eq]
    exact RequestQueue.settle_fold_mem
      (fun _ => .rejectedWith (RefreshController.normalizeError err))
      (RequestQueue.tagFrom 0 ks) (fun _ => RequestQueue.PromiseCell.initial) id k
      (RequestQueue.tagFrom_nodup_fst ks 0) hk rfl

/-- C4 witness: under the default limits with no prior attempts, a
transport rejecting with a plain network `Error` produces one
`REFRESH_FAILED` classification delivered to the event surface, the queue
and the caller, with the refresh-ending signal last. -/
theorem c4_witness :
    (RefreshController.performRefresh [] ⟨3, 60000⟩ 0
      (.error (.err "Network down" none none))).events =
      [.refreshStart,
       .authError (RefreshController.normalizeError (.err "Network down" none none)),
       .rejectAllQueue (RefreshController.normalizeError (.err "Network down" none none)),
       .refreshEnd] ∧
    (RefreshController.performRefresh [] ⟨3, 60000⟩ 0
      (.ok ⟨"newA", "newR", some 3600, none⟩)).events.getLast? = some .refreshEnd := by
  constructor
  · exact (c4_error_propagation [] ⟨3, 60000⟩ 0 (.err "Network down" none none)
      ⟨"newA", "newR", some 3600, none⟩ (by decide)).2.1
  · exact (c4_error_propagation [] ⟨3, 60000⟩ 0 (.err "Network down" none none)
      ⟨"newA", "newR", some 3600, none⟩ (by decide)).2.2.2.1

/-- C6 witness: `proactiveRefreshOffset = 300`, token expiring 3600 s
after `now = 0`: the timer is armed with delay 3,300,000 ms; a token whose
expiry instant has passed arms no timer. -/
theorem c6_witness :
    TokenManager.scheduleProactiveRefresh (some 3600) ⟨300⟩ "tok" 0 = some 3300000 ∧
    TokenManager.scheduleProactiveRefresh (some 100) ⟨300⟩ "tok" 200000 = none := by
  constructor
  · exact (c6_proactive_delay ⟨300⟩ 3600 0 "tok").2.2.2 rfl (by norm_num)
  · exact (c6_proactive_delay ⟨300⟩ 100 200000 "tok").2.2.1 (by norm_num)

end Auxios
